import Mathlib

/-!
# The libvirt storage-pool resource

A shallow embedding of `libvirt/pool_def.go` and `libvirt/resource_libvirt_pool.go`.

* The resource data `d` of the plugin framework is a record with one field per
  attribute of the schema `resourceLibvirtPool` (lines 18-78), typed as the schema
  types it.  The single-value assertions `d.Get(k).(string)` and `d.Get(k).(bool)`
  therefore always succeed.  Only `source_device.path` is read with the
  comma-ok form, and it is kept as an `Option String`: what the assertion of
  line 124 sees.  The schema (lines 65-77) types the key as a string, so
  `d.Get` hands back a string for it, the empty string when the configuration
  leaves the path out: a configuration without a source device path is
  `some ""`.  `none` stands for a value that is not a string, the only case in
  which the assertion reports false.
* The virtualization library is a parameter: a record `Connect σ η` of the
  calls the code issues, each a function of the state `σ` of the layer, with
  `η` the type of the pool objects the lookups hand out.
* Every entry point returns a `Run`: the Go return value, the resource data as
  left behind, the state of the layer, and the list of remote calls issued, in
  order, each with the error it returned.
-/

namespace libvirt

/-! ## Go values -/

/-- An error value handed back by the virtualization library.  `Code` is the
error number of the library, `Text` is what `Error()` prints, which is what the
verb `%s` of `fmt.Errorf` renders. -/
structure VirError where
  Code : Nat
  Text : String
  deriving DecidableEq, Repr

/-- The error number the library uses for "no storage pool with matching name
or uuid" (`libvirt.ERR_NO_STORAGE_POOL`). -/
def ERR_NO_STORAGE_POOL : Nat := 49

/-- Flags of `StoragePool.Build`. -/
inductive StoragePoolBuildFlags where
  | STORAGE_POOL_BUILD_NEW
  | STORAGE_POOL_BUILD_REPAIR
  | STORAGE_POOL_BUILD_RESIZE
  | STORAGE_POOL_BUILD_NO_OVERWRITE
  | STORAGE_POOL_BUILD_OVERWRITE
  deriving DecidableEq, Repr

/-- Flags of `StoragePool.Create`. -/
inductive StoragePoolCreateFlags where
  | STORAGE_POOL_CREATE_NORMAL
  | STORAGE_POOL_CREATE_WITH_BUILD
  | STORAGE_POOL_CREATE_WITH_BUILD_OVERWRITE
  | STORAGE_POOL_CREATE_WITH_BUILD_NO_OVERWRITE
  deriving DecidableEq, Repr

/-- What a lifecycle function returns: `nil`, an error built by `fmt.Errorf`
(kept as its text), or no return at all because of a run-time panic (a method
called through a nil pool pointer). -/
inductive Outcome where
  | nil
  | error (msg : String)
  | panicked
  deriving DecidableEq, Repr

/-! ## The pool-definition document (`pool_def.go`) -/

/-- The part of `libvirtxml.StoragePoolSourceDevice` the code writes. -/
structure StoragePoolSourceDevice where
  Path : String
  deriving DecidableEq, Repr

/-- The part of `libvirtxml.StoragePoolSource` the code writes. -/
structure StoragePoolSource where
  Device : List StoragePoolSourceDevice
  deriving DecidableEq, Repr

/-- The part of `libvirtxml.StoragePoolTarget` the code writes. -/
structure StoragePoolTarget where
  Path : String
  deriving DecidableEq, Repr

/-- The part of `libvirtxml.StoragePool` the code writes (`Type_` is the Go
field `Type`); the two pointer fields are options, `none` for the nil pointer. -/
structure StoragePool where
  Type_ : String
  Name : String
  Target : Option StoragePoolTarget
  Source : Option StoragePoolSource
  deriving DecidableEq, Repr

/-- Go `newDefPool`: every field zero except `Target`, which points to a zero
target. -/
def newDefPool : StoragePool :=
  { Type_ := "", Name := "", Target := some { Path := "" }, Source := none }

/-- Go `newDefPoolSourceDevice`: a source with one zero device. -/
def newDefPoolSourceDevice : StoragePoolSource :=
  { Device := [{ Path := "" }] }

/-! ## Resource data -/

/-- The resource data `d`.  `id` is `d.Id()`, `partialMode` the flag set by
`d.Partial`, `autostart_prior` the value of `autostart` in the prior state, the
other fields are the attributes of the schema as `d.Get` returns them.
`source_device_path` is `some s` when `d.Get("source_device.path")` is the
string `s` (`some ""` for a path that is not configured) and `none` when it is
not a string. -/
structure ResourceData where
  id : String
  name : String
  type : String
  target_path : String
  source_device_path : Option String
  uuid : String
  autostart : Bool
  start : Bool
  build : Bool
  autostart_prior : Bool
  partialMode : Bool
  deriving DecidableEq, Repr

/-- The framework call `d.HasChange("autostart")`: the prior and the new value
differ. -/
def ResourceData.HasChange_autostart (d : ResourceData) : Bool :=
  d.autostart_prior != d.autostart

/-! ## The virtualization layer -/

/-- The remote calls the resource issues. -/
inductive Call (η : Type) where
  | LookupStoragePoolByName (name : String)
  | LookupStoragePoolByUUIDString (uuid : String)
  | StoragePoolDefineXML (xml : String) (flags : Nat)
  | GetName (pool : η)
  | GetUUIDString (pool : η)
  | GetAutostart (pool : η)
  | IsActive (pool : η)
  | SetAutostart (pool : η) (autostart : Bool)
  | Build (pool : η) (flags : StoragePoolBuildFlags)
  | Create (pool : η) (flags : StoragePoolCreateFlags)
  | Destroy (pool : η)
  | Undefine (pool : η)
  | Free (pool : η)
  deriving DecidableEq, Repr

/-- One remote call as it happened: the call and the error it returned
(`none` for a nil error). -/
structure Event (η : Type) where
  call : Call η
  err : Option VirError
  deriving DecidableEq, Repr

/-- The connection `*libvirt.Connect` together with the methods of the pool
objects it hands out.  A Go result `(v, err)` is an `Except`: the code never
looks at `v` when `err` is not nil.  A returned pool pointer is an
`Option η`, `none` for nil. -/
structure Connect (σ η : Type) where
  LookupStoragePoolByName : String → σ → Except VirError (Option η) × σ
  LookupStoragePoolByUUIDString : String → σ → Except VirError (Option η) × σ
  StoragePoolDefineXML : String → Nat → σ → Except VirError (Option η) × σ
  GetName : η → σ → Except VirError String × σ
  GetUUIDString : η → σ → Except VirError String × σ
  GetAutostart : η → σ → Except VirError Bool × σ
  IsActive : η → σ → Except VirError Bool × σ
  SetAutostart : η → Bool → σ → Option VirError × σ
  Build : η → StoragePoolBuildFlags → σ → Option VirError × σ
  Create : η → StoragePoolCreateFlags → σ → Option VirError × σ
  Destroy : η → σ → Option VirError × σ
  Undefine : η → σ → Option VirError × σ
  Free : η → σ → Option VirError × σ

/-- The provider client `*Client`: its field `libvirt` is the connection, `none`
when the pointer is nil. -/
structure Client (σ η : Type) where
  libvirt : Option (Connect σ η)

/-- What the package needs from outside the two files: the text of the constant
`LibVirtConIsNil` and the serializer `xml.Marshal` on pool documents, which
returns the document text or an error (kept as its text). -/
structure Env where
  LibVirtConIsNil : String
  xmlMarshal : StoragePool → Except String String

/-- The result of running one entry point. -/
structure Run (σ η ρ : Type) where
  ret : ρ
  d : ResourceData
  world : σ
  trace : List (Event η)

/-- What a run shows to the outside: the return value, the calls with their
results, and the state of the layer. -/
def Run.seen {σ η ρ : Type} (r : Run σ η ρ) : ρ × List (Event η) × σ :=
  (r.ret, r.trace, r.world)

/-- The calls of a run, without their results. -/
def Run.calls {σ η ρ : Type} (r : Run σ η ρ) : List (Call η) :=
  r.trace.map Event.call

/-- A deferred `storagePool.Free()`: it runs after the body has produced its
return value, and the error it returns is dropped. -/
def deferFree {σ η ρ : Type} (virConn : Connect σ η) (storagePool : η)
    (body : Run σ η ρ) : Run σ η ρ :=
  match virConn.Free storagePool body.world with
  | (e, w) => { body with world := w, trace := body.trace ++ [⟨.Free storagePool, e⟩] }

/-! ## `resourceLibvirtPoolRead` -/

/-- Lines 95-108 of `resourceLibvirtPoolRead`: the body after the deferral. -/
def readBody {σ η : Type} (virConn : Connect σ η) (storagePool : η)
    (d : ResourceData) (w : σ) (tr : List (Event η)) : Run σ η Outcome :=
  match virConn.GetUUIDString storagePool w with
  | (.error err, w) =>
    ⟨.error ("Error lookup up storage pool uuid: " ++ err.Text ++ "\n"), d, w,
      tr ++ [⟨.GetUUIDString storagePool, some err⟩]⟩
  | (.ok uuid, w) =>
    let tr := tr ++ [⟨.GetUUIDString storagePool, none⟩]
    let d := { d with uuid := uuid }
    match virConn.GetAutostart storagePool w with
    | (.error err, w) =>
      ⟨.error ("error lookup up storage pool autostart: " ++ err.Text ++ "\n"), d, w,
        tr ++ [⟨.GetAutostart storagePool, some err⟩]⟩
    | (.ok autostart, w) =>
      let d := { d with autostart := autostart }
      ⟨.nil, d, w, tr ++ [⟨.GetAutostart storagePool, none⟩]⟩

/-- Go `resourceLibvirtPoolRead`. -/
def resourceLibvirtPoolRead {σ η : Type} (env : Env) (d : ResourceData)
    (client : Client σ η) (w : σ) : Run σ η Outcome :=
  match client.libvirt with
  | none => ⟨.error env.LibVirtConIsNil, d, w, []⟩
  | some virConn =>
    match virConn.LookupStoragePoolByName d.id w with
    | (.error err, w) =>
      ⟨.error ("Error lookup up storage pool by name: " ++ err.Text ++ "\n"), d, w,
        [⟨.LookupStoragePoolByName d.id, some err⟩]⟩
    | (.ok none, w) =>
      ⟨.panicked, d, w, [⟨.LookupStoragePoolByName d.id, none⟩]⟩
    | (.ok (some storagePool), w) =>
      deferFree virConn storagePool
        (readBody virConn storagePool d w [⟨.LookupStoragePoolByName d.id, none⟩])

/-! ## `resourceLibvirtPoolCreate` -/

/-- Lines 118-132 of `resourceLibvirtPoolCreate`: the document that is
serialized, or the error returned before it is complete. -/
def createPoolDef (d : ResourceData) : Except Outcome StoragePool :=
  let poolDef := newDefPool
  let poolDef := { poolDef with Name := d.name }
  let poolDef := { poolDef with Type_ := d.type }
  match poolDef.Target with
  | none => .error .panicked
  | some target =>
    let poolDef := { poolDef with Target := some { target with Path := d.target_path } }
    if poolDef.Type_ = "fs" then
      match d.source_device_path with
      | none => .error (.error "Error getting source device path for fs")
      | some sourceDevicePath =>
        let sourceDeviceDef := newDefPoolSourceDevice
        match sourceDeviceDef.Device with
        | [] => .error .panicked
        | dev :: rest =>
          let sourceDeviceDef : StoragePoolSource :=
            { sourceDeviceDef with Device := { dev with Path := sourceDevicePath } :: rest }
          .ok { poolDef with Source := some sourceDeviceDef }
    else
      .ok poolDef

/-- Lines 178-187: the start step and the final return. -/
def createStart {σ η : Type} (virConn : Connect σ η) (pool : η)
    (d : ResourceData) (w : σ) (tr : List (Event η)) : Run σ η Outcome :=
  let start := d.start
  if start then
    match virConn.Create pool .STORAGE_POOL_CREATE_NORMAL w with
    | (some err, w) =>
      ⟨.error ("Error creating libvirt pool: " ++ err.Text), d, w,
        tr ++ [⟨.Create pool .STORAGE_POOL_CREATE_NORMAL, some err⟩]⟩
    | (none, w) =>
      ⟨.nil, { d with partialMode := false }, w,
        tr ++ [⟨.Create pool .STORAGE_POOL_CREATE_NORMAL, none⟩]⟩
  else
    ⟨.nil, { d with partialMode := false }, w, tr⟩

/-- Lines 170-176: the build step, then the rest. -/
def createBuild {σ η : Type} (virConn : Connect σ η) (pool : η)
    (d : ResourceData) (w : σ) (tr : List (Event η)) : Run σ η Outcome :=
  let build := d.build
  if build then
    match virConn.Build pool .STORAGE_POOL_BUILD_NO_OVERWRITE w with
    | (some err, w) =>
      ⟨.error ("Error building libvirt pool: " ++ err.Text), d, w,
        tr ++ [⟨.Build pool .STORAGE_POOL_BUILD_NO_OVERWRITE, some err⟩]⟩
    | (none, w) =>
      createStart virConn pool d w (tr ++ [⟨.Build pool .STORAGE_POOL_BUILD_NO_OVERWRITE, none⟩])
  else
    createStart virConn pool d w tr

/-- Lines 162-168: the autostart step, then the rest. -/
def createAutostart {σ η : Type} (virConn : Connect σ η) (pool : η)
    (d : ResourceData) (w : σ) (tr : List (Event η)) : Run σ η Outcome :=
  let autostart := d.autostart
  if autostart then
    match virConn.SetAutostart pool autostart w with
    | (some err, w) =>
      ⟨.error ("Error setting libvirt pool autostart: " ++ err.Text), d, w,
        tr ++ [⟨.SetAutostart pool autostart, some err⟩]⟩
    | (none, w) =>
      createBuild virConn pool d w (tr ++ [⟨.SetAutostart pool autostart, none⟩])
  else
    createBuild virConn pool d w tr

/-- Lines 147-160: partial mode on, the name and the UUID are read back from
the defined pool and recorded, then the rest. -/
def createAfterDefine {σ η : Type} (virConn : Connect σ η) (pool : η)
    (d : ResourceData) (w : σ) (tr : List (Event η)) : Run σ η Outcome :=
  let d := { d with partialMode := true }
  match virConn.GetName pool w with
  | (.error err, w) =>
    ⟨.error ("Error creating libvirt pool, while fetching name: " ++ err.Text), d, w,
      tr ++ [⟨.GetName pool, some err⟩]⟩
  | (.ok name, w) =>
    let tr := tr ++ [⟨.GetName pool, none⟩]
    let d := { d with id := name }
    let d := { d with name := name }
    match virConn.GetUUIDString pool w with
    | (.error err, w) =>
      ⟨.error ("Error creating libvirt pool: " ++ err.Text), d, w,
        tr ++ [⟨.GetUUIDString pool, some err⟩]⟩
    | (.ok uuid, w) =>
      let d := { d with uuid := uuid }
      createAutostart virConn pool d w (tr ++ [⟨.GetUUIDString pool, none⟩])

/-- Go `resourceLibvirtPoolCreate`. -/
def resourceLibvirtPoolCreate {σ η : Type} (env : Env) (d : ResourceData)
    (client : Client σ η) (w : σ) : Run σ η Outcome :=
  match client.libvirt with
  | none => ⟨.error env.LibVirtConIsNil, d, w, []⟩
  | some virConn =>
    match createPoolDef d with
    | .error out => ⟨out, d, w, []⟩
    | .ok poolDef =>
      match env.xmlMarshal poolDef with
      | .error err => ⟨.error ("Error serializing libvirt pool: " ++ err), d, w, []⟩
      | .ok poolDefXML =>
        match virConn.StoragePoolDefineXML poolDefXML 0 w with
        | (.error err, w) =>
          ⟨.error ("Error creating libvirt pool: " ++ err.Text), d, w,
            [⟨.StoragePoolDefineXML poolDefXML 0, some err⟩]⟩
        | (.ok none, w) =>
          ⟨.panicked, { d with partialMode := true }, w,
            [⟨.StoragePoolDefineXML poolDefXML 0, none⟩]⟩
        | (.ok (some pool), w) =>
          createAfterDefine virConn pool d w [⟨.StoragePoolDefineXML poolDefXML 0, none⟩]

/-! ## `resourceLibvirtPoolDelete` -/

/-- Go `resourceLibvirtPoolDelete`. -/
def resourceLibvirtPoolDelete {σ η : Type} (env : Env) (d : ResourceData)
    (client : Client σ η) (w : σ) : Run σ η Outcome :=
  match client.libvirt with
  | none => ⟨.error env.LibVirtConIsNil, d, w, []⟩
  | some virConn =>
    match virConn.LookupStoragePoolByUUIDString d.uuid w with
    | (.error err, w) =>
      ⟨.error ("Error lookup up storage pool by uuid: " ++ err.Text ++ "\n"), d, w,
        [⟨.LookupStoragePoolByUUIDString d.uuid, some err⟩]⟩
    | (.ok none, w) =>
      ⟨.panicked, d, w, [⟨.LookupStoragePoolByUUIDString d.uuid, none⟩]⟩
    | (.ok (some storagePool), w) =>
      let tr : List (Event η) := [⟨.LookupStoragePoolByUUIDString d.uuid, none⟩]
      match virConn.IsActive storagePool w with
      | (.error err, w) =>
        ⟨.error ("Error lookup up if storage pool if active: " ++ err.Text ++ "\n"), d, w,
          tr ++ [⟨.IsActive storagePool, some err⟩]⟩
      | (.ok isActive, w) =>
        let tr := tr ++ [⟨.IsActive storagePool, none⟩]
        let undefine (w : σ) (tr : List (Event η)) : Run σ η Outcome :=
          match virConn.Undefine storagePool w with
          | (some err, w) =>
            ⟨.error ("Error undefining storage pool: " ++ err.Text ++ "\n"), d, w,
              tr ++ [⟨.Undefine storagePool, some err⟩]⟩
          | (none, w) => ⟨.nil, d, w, tr ++ [⟨.Undefine storagePool, none⟩]⟩
        if isActive then
          match virConn.Destroy storagePool w with
          | (some err, w) =>
            ⟨.error ("Error destroying storage pool: " ++ err.Text ++ "\n"), d, w,
              tr ++ [⟨.Destroy storagePool, some err⟩]⟩
          | (none, w) => undefine w (tr ++ [⟨.Destroy storagePool, none⟩])
        else
          undefine w tr

/-! ## `resourceLibvirtPoolExists` -/

/-- Go `resourceLibvirtPoolExists`; the return value is the pair
`(bool, error)`, the error kept as its text. -/
def resourceLibvirtPoolExists {σ η : Type} (env : Env) (d : ResourceData)
    (client : Client σ η) (w : σ) : Run σ η (Bool × Option String) :=
  match client.libvirt with
  | none => ⟨(false, some env.LibVirtConIsNil), d, w, []⟩
  | some virConn =>
    match virConn.LookupStoragePoolByName d.name w with
    | (.error err, w) =>
      ⟨(false, some ("error lookup up storage pool by name: " ++ err.Text ++ "\n")), d, w,
        [⟨.LookupStoragePoolByName d.name, some err⟩]⟩
    | (.ok none, w) =>
      ⟨(false, none), d, w, [⟨.LookupStoragePoolByName d.name, none⟩]⟩
    | (.ok (some storagePool), w) =>
      deferFree virConn storagePool
        (if (some storagePool : Option η).isNone then
          ⟨(false, none), d, w, [⟨.LookupStoragePoolByName d.name, none⟩]⟩
        else
          ⟨(true, none), d, w, [⟨.LookupStoragePoolByName d.name, none⟩]⟩)

/-! ## `resourceLibvirtPoolUpdate` -/

/-- Go `resourceLibvirtPoolUpdate`.  With a nil pool pointer the panic comes at
`SetAutostart` when autostart has changed (partial mode still on) and at the
deferred `Free` otherwise (partial mode already off). -/
def resourceLibvirtPoolUpdate {σ η : Type} (env : Env) (d : ResourceData)
    (client : Client σ η) (w : σ) : Run σ η Outcome :=
  match client.libvirt with
  | none => ⟨.error env.LibVirtConIsNil, d, w, []⟩
  | some virConn =>
    match virConn.LookupStoragePoolByName d.name w with
    | (.error err, w) =>
      ⟨.error ("Error lookup up storage pool by name: " ++ err.Text ++ "\n"), d, w,
        [⟨.LookupStoragePoolByName d.name, some err⟩]⟩
    | (.ok none, w) =>
      ⟨.panicked, { d with partialMode := d.HasChange_autostart }, w,
        [⟨.LookupStoragePoolByName d.name, none⟩]⟩
    | (.ok (some storagePool), w) =>
      let tr : List (Event η) := [⟨.LookupStoragePoolByName d.name, none⟩]
      let d := { d with partialMode := true }
      deferFree virConn storagePool
        (if d.HasChange_autostart then
          let autostart := d.autostart
          match virConn.SetAutostart storagePool autostart w with
          | (some err, w) =>
            ⟨.error ("Error changing storage pool autostart: " ++ err.Text ++ "\n"), d, w,
              tr ++ [⟨.SetAutostart storagePool autostart, some err⟩]⟩
          | (none, w) =>
            ⟨.nil, { d with partialMode := false }, w,
              tr ++ [⟨.SetAutostart storagePool autostart, none⟩]⟩
        else
          ⟨.nil, { d with partialMode := false }, w, tr⟩)

/-! ## Two models of the virtualization layer -/

/-- A layer without state in which every call succeeds, except the calls for
which `fails` names an error.  Every lookup and every definition hands out
the one pool object; its name is `name`, its UUID `uuid`, and `autostart`
and `active` are what `GetAutostart` and `IsActive` report. -/
def scripted (name uuid : String) (autostart active : Bool)
    (fails : Call Unit → Option VirError) : Connect Unit Unit where
  LookupStoragePoolByName n w :=
    (match fails (.LookupStoragePoolByName n) with
      | some e => .error e
      | none => .ok (some ()), w)
  LookupStoragePoolByUUIDString u w :=
    (match fails (.LookupStoragePoolByUUIDString u) with
      | some e => .error e
      | none => .ok (some ()), w)
  StoragePoolDefineXML x f w :=
    (match fails (.StoragePoolDefineXML x f) with
      | some e => .error e
      | none => .ok (some ()), w)
  GetName p w :=
    (match fails (.GetName p) with
      | some e => .error e
      | none => .ok name, w)
  GetUUIDString p w :=
    (match fails (.GetUUIDString p) with
      | some e => .error e
      | none => .ok uuid, w)
  GetAutostart p w :=
    (match fails (.GetAutostart p) with
      | some e => .error e
      | none => .ok autostart, w)
  IsActive p w :=
    (match fails (.IsActive p) with
      | some e => .error e
      | none => .ok active, w)
  SetAutostart p b w := (fails (.SetAutostart p b), w)
  Build p f w := (fails (.Build p f), w)
  Create p f w := (fails (.Create p f), w)
  Destroy p w := (fails (.Destroy p), w)
  Undefine p w := (fails (.Undefine p), w)
  Free p w := (fails (.Free p), w)

/-- A pool as the model layer keeps it. -/
structure PoolObject where
  name : String
  uuid : String
  autostart : Bool
  active : Bool
  deriving DecidableEq, Repr

/-- The state of the model layer: the defined pools, keyed by name, and the
number of definitions made so far, from which the next UUID is drawn. -/
structure Hypervisor where
  pools : List PoolObject
  serial : Nat
  deriving DecidableEq, Repr

/-- The pool of a given name, if one is defined. -/
def Hypervisor.find (s : Hypervisor) (n : String) : Option PoolObject :=
  s.pools.find? (fun p => p.name == n)

/-- Applies `f` to the pool of name `n`. -/
def Hypervisor.modify (s : Hypervisor) (n : String) (f : PoolObject → PoolObject) :
    Hypervisor :=
  { s with pools := s.pools.map (fun p => if p.name == n then f p else p) }

/-- Defines a pool of name `n` with UUID `u`: inactive, autostart off. -/
def Hypervisor.add (s : Hypervisor) (n u : String) : Hypervisor :=
  { pools := ⟨n, u, false, false⟩ :: s.pools, serial := s.serial + 1 }

/-- The error of the library for a pool that is not there. -/
def noStoragePool (key : String) : VirError :=
  ⟨ERR_NO_STORAGE_POOL, "Storage pool not found: no storage pool with matching name or uuid '"
    ++ key ++ "'"⟩

/-- The error of the library for a call the state of the pool does not allow
(`libvirt.ERR_OPERATION_INVALID`). -/
def operationInvalid (what : String) : VirError :=
  ⟨55, "Requested operation is not valid: " ++ what⟩

/-- The model layer: a store of defined pools keyed by name, each with a UUID
assigned at definition, an autostart flag that is false at definition, and an
activity flag.  A pool object handed out is the name of the pool.  As in the
library, a lookup that finds nothing returns an error, not a nil pool.
`xmlName` is how the layer reads the pool name out of a definition document
and `newUUID` how it draws the UUID of the n-th definition. -/
def storeConnect (xmlName : String → Option String) (newUUID : Nat → String) :
    Connect Hypervisor String where
  LookupStoragePoolByName n s :=
    (match s.find n with
      | some _ => .ok (some n)
      | none => .error (noStoragePool n), s)
  LookupStoragePoolByUUIDString u s :=
    (match s.pools.find? (fun p => p.uuid == u) with
      | some o => .ok (some o.name)
      | none => .error (noStoragePool u), s)
  StoragePoolDefineXML x _ s :=
    match xmlName x with
    | none => (.error ⟨27, "XML error: missing pool name"⟩, s)
    | some n =>
      match s.find n with
      | some _ => (.error ⟨9, "operation failed: pool '" ++ n ++ "' already exists"⟩, s)
      | none =>
        (.ok (some n), s.add n (newUUID s.serial))
  GetName p s :=
    (match s.find p with
      | some o => .ok o.name
      | none => .error (noStoragePool p), s)
  GetUUIDString p s :=
    (match s.find p with
      | some o => .ok o.uuid
      | none => .error (noStoragePool p), s)
  GetAutostart p s :=
    (match s.find p with
      | some o => .ok o.autostart
      | none => .error (noStoragePool p), s)
  IsActive p s :=
    (match s.find p with
      | some o => .ok o.active
      | none => .error (noStoragePool p), s)
  SetAutostart p b s :=
    match s.find p with
    | some _ => (none, s.modify p (fun o => { o with autostart := b }))
    | none => (some (noStoragePool p), s)
  Build p _ s :=
    match s.find p with
    | some o =>
      if o.active then (some (operationInvalid "storage pool is already active"), s)
      else (none, s)
    | none => (some (noStoragePool p), s)
  Create p _ s :=
    match s.find p with
    | some o =>
      if o.active then (some (operationInvalid "storage pool is already active"), s)
      else (none, s.modify p (fun o => { o with active := true }))
    | none => (some (noStoragePool p), s)
  Destroy p s :=
    match s.find p with
    | some o =>
      if o.active then (none, s.modify p (fun o => { o with active := false }))
      else (some (operationInvalid "storage pool is not active"), s)
    | none => (some (noStoragePool p), s)
  Undefine p s :=
    match s.find p with
    | some o =>
      if o.active then (some (operationInvalid "storage pool is still active"), s)
      else (none, { s with pools := s.pools.filter (fun q => q.name != p) })
    | none => (some (noStoragePool p), s)
  Free _ s := (none, s)

/-- The model layer has a pool of name `n` with UUID `u` and autostart flag
`a`. -/
def Hypervisor.Holds (s : Hypervisor) (n u : String) (a : Bool) : Prop :=
  ∃ act, s.find n = some ⟨n, u, a, act⟩

/-- A layer state with no pool defined. -/
def emptyHypervisor : Hypervisor := { pools := [], serial := 0 }

/-- A serializer for examples: it never fails and writes the name, the type
and the target path of the document, separated by bars. -/
def sampleMarshal (p : StoragePool) : Except String String :=
  .ok (p.Name ++ "|" ++ p.Type_ ++ "|" ++ (match p.Target with
    | some t => t.Path
    | none => ""))

/-- How the example layer reads the pool name out of a document written by
`sampleMarshal`: the text before the first bar. -/
def sampleXmlName (x : String) : Option String :=
  some (String.mk (x.data.takeWhile (fun ch => ch != '|')))

/-- An environment for examples. -/
def sampleEnv : Env :=
  { LibVirtConIsNil := "the libvirt connection was nil", xmlMarshal := sampleMarshal }

/-- The configuration of the first scenario: a directory pool with autostart
and start requested. -/
def pool1 : ResourceData :=
  { id := "", name := "pool1", type := "dir", target_path := "/data/pool1",
    source_device_path := some "", uuid := "", autostart := true, start := true,
    build := false, autostart_prior := false, partialMode := false }

/-- The configuration of the second scenario: a filesystem pool without a
source device path, so that `d.Get("source_device.path")` is the empty
string. -/
def pool2 : ResourceData :=
  { id := "", name := "pool2", type := "fs", target_path := "/mnt/p2",
    source_device_path := some "", uuid := "", autostart := false, start := false,
    build := false, autostart_prior := false, partialMode := false }

/-- The document Create builds for the second scenario: a source with one
device whose path is empty. -/
def pool2Doc : StoragePool :=
  { Type_ := "fs", Name := "pool2", Target := some { Path := "/mnt/p2" },
    Source := some { Device := [{ Path := "" }] } }

/-- The first scenario after a successful Create: the identity is recorded. -/
def pool1Defined : ResourceData :=
  { pool1 with id := "pool1", uuid := "u-1" }

/-- A layer state in which the pool of the first scenario is defined and
active. -/
def activeStore : Hypervisor :=
  { pools := [⟨"pool1", "u-1", true, true⟩], serial := 1 }

/-- The first scenario later on, nothing changed: the prior state has the
autostart value of the configuration. -/
def pool1Steady : ResourceData :=
  { pool1Defined with autostart_prior := true }

/-- The document Create builds for the first scenario. -/
def pool1Doc : StoragePool :=
  { Type_ := "dir", Name := "pool1", Target := some { Path := "/data/pool1" }, Source := none }

/-- The layer state after the first scenario has been defined. -/
def definedStore : Hypervisor :=
  emptyHypervisor.add "pool1" "u-1"

/-- A filesystem pool with its source device. -/
def pool3 : ResourceData :=
  { id := "", name := "pool3", type := "fs", target_path := "/mnt/p3",
    source_device_path := some "/dev/sdb1", uuid := "", autostart := false, start := false,
    build := true, autostart_prior := false, partialMode := false }

/-! ## Predicates on calls -/

/-- Recognizes a `Destroy` call. -/
def Call.isDestroy {η : Type} : Call η → Bool
  | .Destroy _ => true
  | _ => false

/-- Recognizes an `Undefine` call. -/
def Call.isUndefine {η : Type} : Call η → Bool
  | .Undefine _ => true
  | _ => false

/-- Recognizes a `Free` call. -/
def Call.isFree {η : Type} : Call η → Bool
  | .Free _ => true
  | _ => false

/-- Recognizes a `SetAutostart` call. -/
def Call.isSetAutostart {η : Type} : Call η → Bool
  | .SetAutostart _ _ => true
  | _ => false

/-- Recognizes a `StoragePoolDefineXML` call. -/
def Call.isDefine {η : Type} : Call η → Bool
  | .StoragePoolDefineXML _ _ => true
  | _ => false

/-! ## The steps of Create -/

/-- The places where `resourceLibvirtPoolCreate` can fail on an underlying
error. -/
inductive CreateStep where
  | serialize
  | define
  | fetchName
  | fetchUUID
  | setAutostart
  | build
  | start
  deriving DecidableEq, Repr

/-- The step of Create a remote call belongs to. -/
def Call.createStep {η : Type} : Call η → Option CreateStep
  | .StoragePoolDefineXML _ _ => some .define
  | .GetName _ => some .fetchName
  | .GetUUIDString _ => some .fetchUUID
  | .SetAutostart _ _ => some .setAutostart
  | .Build _ _ => some .build
  | .Create _ _ => some .start
  | _ => none

/-- The text `resourceLibvirtPoolCreate` puts in front of the underlying error
at each step (the format strings of lines 138, 144, 151, 158, 166, 174 and
182, up to the verb). -/
def CreateStep.errorText : CreateStep → String
  | .serialize => "Error serializing libvirt pool: "
  | .define => "Error creating libvirt pool: "
  | .fetchName => "Error creating libvirt pool, while fetching name: "
  | .fetchUUID => "Error creating libvirt pool: "
  | .setAutostart => "Error setting libvirt pool autostart: "
  | .build => "Error building libvirt pool: "
  | .start => "Error creating libvirt pool: "

/-- The calls Create has to issue on a pool it has defined when none of them
fails: the name, the UUID, then autostart, build and start as far as the
configuration asks for them. -/
def plannedCalls {η : Type} (d : ResourceData) (pool : η) : List (Call η) :=
  [.GetName pool, .GetUUIDString pool] ++
    ((if d.autostart then [.SetAutostart pool true] else []) ++
      ((if d.build then [.Build pool .STORAGE_POOL_BUILD_NO_OVERWRITE] else []) ++
        (if d.start then [.Create pool .STORAGE_POOL_CREATE_NORMAL] else [])))

/-- The events `rest` are the planned calls up to and including the first one
that fails, and `ret` is the return value that goes with them: nil when none
failed, else the error of the failed step around the underlying error. -/
def FollowsPlan {η : Type} (rest : List (Event η)) (planned : List (Call η))
    (ret : Outcome) : Prop :=
  (∃ tail, rest.map Event.call ++ tail = planned) ∧
  (∀ ev ∈ rest.dropLast, ev.err = none) ∧
  (ret = .nil ↔ ∀ ev ∈ rest, ev.err = none) ∧
  (ret = .nil → rest.map Event.call = planned) ∧
  (ret ≠ .nil → ∃ ev err s, rest.getLast? = some ev ∧ ev.err = some err ∧
    ev.call.createStep = some s ∧ ret = .error (s.errorText ++ err.Text))

/-- When Create fails at step `s` on the underlying error text `e`: for the
serialization, the document was built and `xml.Marshal` returned `e`; for the
other steps, the last remote call of the run belongs to `s` and returned an
error with text `e`. -/
def FailedAt {σ η : Type} (env : Env) (d : ResourceData) (r : Run σ η Outcome)
    (s : CreateStep) (e : String) : Prop :=
  match s with
  | .serialize => ∃ doc, createPoolDef d = .ok doc ∧ env.xmlMarshal doc = .error e
  | _ => ∃ ev err, r.trace.getLast? = some ev ∧ ev.err = some err ∧ err.Text = e ∧
      ev.call.createStep = some s

/-- The steps whose error text is "Error creating libvirt pool: " are one
class; every other step is a class of its own. -/
def CreateStep.textClass : CreateStep → Nat
  | .serialize => 0
  | .define => 1
  | .fetchName => 2
  | .fetchUUID => 1
  | .setAutostart => 3
  | .build => 4
  | .start => 1

/-- A layer in which the calls of one step of Create fail with the error
`err` and every other call succeeds. -/
def failingAt (step : CreateStep) (err : VirError) : Connect Unit Unit :=
  scripted "pool1" "u-1" false false
    (fun c => if c.createStep = some step then some err else none)

/-- An error of the layer for examples. -/
def internalError : VirError := ⟨1, "internal error"⟩

/-! ## The connection check -/

/-- C6: with a nil connection handle, each of Create, Read, Update, Delete and
Exists returns the connection-unavailable error (Exists returns false with
it), issues no remote call, and leaves the resource data and the layer as
they were. -/
theorem nil_connection_checked_first {σ η : Type} (env : Env) (d : ResourceData) (w : σ) :
    (let r := resourceLibvirtPoolCreate env d (⟨none⟩ : Client σ η) w
     r.ret = .error env.LibVirtConIsNil ∧ r.trace = [] ∧ r.d = d ∧ r.world = w) ∧
    (let r := resourceLibvirtPoolRead env d (⟨none⟩ : Client σ η) w
     r.ret = .error env.LibVirtConIsNil ∧ r.trace = [] ∧ r.d = d ∧ r.world = w) ∧
    (let r := resourceLibvirtPoolUpdate env d (⟨none⟩ : Client σ η) w
     r.ret = .error env.LibVirtConIsNil ∧ r.trace = [] ∧ r.d = d ∧ r.world = w) ∧
    (let r := resourceLibvirtPoolDelete env d (⟨none⟩ : Client σ η) w
     r.ret = .error env.LibVirtConIsNil ∧ r.trace = [] ∧ r.d = d ∧ r.world = w) ∧
    (let r := resourceLibvirtPoolExists env d (⟨none⟩ : Client σ η) w
     r.ret = (false, some env.LibVirtConIsNil) ∧ r.trace = [] ∧ r.d = d ∧ r.world = w) := by
  simp [resourceLibvirtPoolCreate, resourceLibvirtPoolRead, resourceLibvirtPoolUpdate,
    resourceLibvirtPoolDelete, resourceLibvirtPoolExists]

/-! ## The steps after the definition -/

lemma followsPlan_nil {η : Type} : FollowsPlan ([] : List (Event η)) [] .nil := by
  simp [FollowsPlan]

lemma followsPlan_fail {η : Type} (c : Call η) (err : VirError) (s : CreateStep)
    (planned : List (Call η)) (hs : c.createStep = some s) :
    FollowsPlan [⟨c, some err⟩] (c :: planned) (.error (s.errorText ++ err.Text)) := by
  simp [FollowsPlan, hs]

lemma followsPlan_cons {η : Type} (e : Event η) (rest : List (Event η))
    (planned : List (Call η)) (ret : Outcome) (he : e.err = none)
    (h : FollowsPlan rest planned ret) :
    FollowsPlan (e :: rest) (e.call :: planned) ret := by
  obtain ⟨⟨tail, h1⟩, h2, h3, h4, h5⟩ := h
  refine ⟨⟨tail, by simp [h1]⟩, ?_, ?_, ?_, ?_⟩
  · cases rest with
    | nil => simp
    | cons b rest =>
      intro ev hev
      simp only [List.dropLast_cons₂, List.mem_cons] at hev
      rcases hev with rfl | hev
      · exact he
      · exact h2 ev hev
  · simp [h3, he]
  · intro hr
    simp [h4 hr]
  · intro hr
    obtain ⟨ev, err, s, hl, hrest⟩ := h5 hr
    refine ⟨ev, err, s, ?_, hrest⟩
    cases rest with
    | nil => simp at hl
    | cons b rest => simpa [List.getLast?_cons_cons] using hl

lemma createStart_follows {σ η : Type} (c : Connect σ η) (pool : η) (d : ResourceData)
    (w : σ) (tr : List (Event η)) :
    ∃ rest, (createStart c pool d w tr).trace = tr ++ rest ∧
      FollowsPlan rest (if d.start then [.Create pool .STORAGE_POOL_CREATE_NORMAL] else [])
        (createStart c pool d w tr).ret := by
  by_cases hs : d.start = true
  · rcases hc : c.Create pool .STORAGE_POOL_CREATE_NORMAL w with ⟨_ | err, w2⟩
    · refine ⟨[⟨.Create pool .STORAGE_POOL_CREATE_NORMAL, none⟩], ?_, ?_⟩
      · simp [createStart, hs, hc]
      · simpa [createStart, hs, hc] using
          followsPlan_cons ⟨.Create pool .STORAGE_POOL_CREATE_NORMAL, none⟩ [] [] .nil rfl
            followsPlan_nil
    · refine ⟨[⟨.Create pool .STORAGE_POOL_CREATE_NORMAL, some err⟩], ?_, ?_⟩
      · simp [createStart, hs, hc]
      · simpa [createStart, hs, hc] using
          followsPlan_fail (Call.Create pool .STORAGE_POOL_CREATE_NORMAL) err .start [] rfl
  · refine ⟨[], ?_, ?_⟩
    · simp [createStart, hs]
    · simpa [createStart, hs] using (followsPlan_nil : FollowsPlan ([] : List (Event η)) [] .nil)

lemma createBuild_follows {σ η : Type} (c : Connect σ η) (pool : η) (d : ResourceData)
    (w : σ) (tr : List (Event η)) :
    ∃ rest, (createBuild c pool d w tr).trace = tr ++ rest ∧
      FollowsPlan rest
        ((if d.build then [.Build pool .STORAGE_POOL_BUILD_NO_OVERWRITE] else []) ++
          (if d.start then [.Create pool .STORAGE_POOL_CREATE_NORMAL] else []))
        (createBuild c pool d w tr).ret := by
  by_cases hb : d.build = true
  · rcases hc : c.Build pool .STORAGE_POOL_BUILD_NO_OVERWRITE w with ⟨_ | err, w2⟩
    · obtain ⟨rest, h1, h2⟩ := createStart_follows c pool d w2
        (tr ++ [⟨.Build pool .STORAGE_POOL_BUILD_NO_OVERWRITE, none⟩])
      refine ⟨⟨.Build pool .STORAGE_POOL_BUILD_NO_OVERWRITE, none⟩ :: rest, ?_, ?_⟩
      · simp [createBuild, hb, hc, h1]
      · simpa [createBuild, hb, hc] using
          followsPlan_cons ⟨.Build pool .STORAGE_POOL_BUILD_NO_OVERWRITE, none⟩ rest _ _ rfl h2
    · refine ⟨[⟨.Build pool .STORAGE_POOL_BUILD_NO_OVERWRITE, some err⟩], ?_, ?_⟩
      · simp [createBuild, hb, hc]
      · simpa [createBuild, hb, hc] using
          followsPlan_fail (Call.Build pool .STORAGE_POOL_BUILD_NO_OVERWRITE) err .build _ rfl
  · obtain ⟨rest, h1, h2⟩ := createStart_follows c pool d w tr
    refine ⟨rest, ?_, ?_⟩
    · simp [createBuild, hb, h1]
    · simpa [createBuild, hb] using h2

lemma createAutostart_follows {σ η : Type} (c : Connect σ η) (pool : η) (d : ResourceData)
    (w : σ) (tr : List (Event η)) :
    ∃ rest, (createAutostart c pool d w tr).trace = tr ++ rest ∧
      FollowsPlan rest
        ((if d.autostart then [.SetAutostart pool true] else []) ++
          ((if d.build then [.Build pool .STORAGE_POOL_BUILD_NO_OVERWRITE] else []) ++
            (if d.start then [.Create pool .STORAGE_POOL_CREATE_NORMAL] else [])))
        (createAutostart c pool d w tr).ret := by
  by_cases ha : d.autostart = true
  · rcases hc : c.SetAutostart pool true w with ⟨_ | err, w2⟩
    · obtain ⟨rest, h1, h2⟩ := createBuild_follows c pool d w2
        (tr ++ [⟨.SetAutostart pool true, none⟩])
      refine ⟨⟨.SetAutostart pool true, none⟩ :: rest, ?_, ?_⟩
      · simp [createAutostart, ha, hc, h1]
      · simpa [createAutostart, ha, hc] using
          followsPlan_cons ⟨.SetAutostart pool true, none⟩ rest _ _ rfl h2
    · refine ⟨[⟨.SetAutostart pool true, some err⟩], ?_, ?_⟩
      · simp [createAutostart, ha, hc]
      · simpa [createAutostart, ha, hc] using
          followsPlan_fail (Call.SetAutostart pool true) err .setAutostart _ rfl
  · obtain ⟨rest, h1, h2⟩ := createBuild_follows c pool d w tr
    refine ⟨rest, ?_, ?_⟩
    · simp [createAutostart, ha, h1]
    · simpa [createAutostart, ha] using h2

lemma createAfterDefine_follows {σ η : Type} (c : Connect σ η) (pool : η)
    (d : ResourceData) (w : σ) (tr : List (Event η)) :
    ∃ rest, (createAfterDefine c pool d w tr).trace = tr ++ rest ∧
      FollowsPlan rest (plannedCalls d pool) (createAfterDefine c pool d w tr).ret := by
  rcases hn : c.GetName pool w with ⟨err | name, w2⟩
  · refine ⟨[⟨.GetName pool, some err⟩], ?_, ?_⟩
    · simp [createAfterDefine, hn]
    · simpa [createAfterDefine, hn, plannedCalls] using
        followsPlan_fail (Call.GetName pool) err .fetchName _ rfl
  · rcases hu : c.GetUUIDString pool w2 with ⟨err | uuid, w3⟩
    · refine ⟨[⟨.GetName pool, none⟩, ⟨.GetUUIDString pool, some err⟩], ?_, ?_⟩
      · simp [createAfterDefine, hn, hu]
      · simpa [createAfterDefine, hn, hu, plannedCalls] using
          followsPlan_cons ⟨.GetName pool, none⟩ _ _ _ rfl
            (followsPlan_fail (Call.GetUUIDString pool) err .fetchUUID _ rfl)
    · obtain ⟨rest, h1, h2⟩ := createAutostart_follows c pool
        { d with partialMode := true, id := name, name := name, uuid := uuid } w3
        (tr ++ [⟨.GetName pool, none⟩] ++ [⟨.GetUUIDString pool, none⟩])
      refine ⟨⟨.GetName pool, none⟩ :: ⟨.GetUUIDString pool, none⟩ :: rest, ?_, ?_⟩
      · simpa [createAfterDefine, hn, hu] using h1
      · simpa [createAfterDefine, hn, hu, plannedCalls] using
          followsPlan_cons ⟨.GetName pool, none⟩ _ _ _ rfl
            (followsPlan_cons ⟨.GetUUIDString pool, none⟩ rest _ _ rfl h2)

lemma createPoolDef_ok (d : ResourceData) (doc : StoragePool)
    (h : createPoolDef d = .ok doc) :
    doc.Name = d.name ∧ doc.Type_ = d.type ∧ doc.Target = some ⟨d.target_path⟩ ∧
    (doc.Source.isSome ↔ d.type = "fs") ∧
    (∀ src, doc.Source = some src →
      ∃ path, d.source_device_path = some path ∧ src.Device = [⟨path⟩]) := by
  by_cases ht : d.type = "fs"
  · rcases hp : d.source_device_path with _ | path
    · simp [createPoolDef, newDefPool, ht, hp] at h
    · simp [createPoolDef, newDefPool, newDefPoolSourceDevice, ht, hp] at h
      subst h
      simp [ht]
  · simp [createPoolDef, newDefPool, ht] at h
    subst h
    simp [ht]

lemma createPoolDef_error (d : ResourceData) (out : Outcome)
    (h : createPoolDef d = .error out) :
    out = .error "Error getting source device path for fs" := by
  by_cases ht : d.type = "fs"
  · rcases hp : d.source_device_path with _ | path
    · simp [createPoolDef, newDefPool, ht, hp] at h
      exact h.symm
    · simp [createPoolDef, newDefPool, newDefPoolSourceDevice, ht, hp] at h
  · simp [createPoolDef, newDefPool, ht] at h

lemma planned_not_define {η : Type} (d : ResourceData) (pool : η) (c : Call η)
    (h : c ∈ plannedCalls d pool) :
    c.isDefine = false ∧ c.isDestroy = false ∧ c.isUndefine = false := by
  simp only [plannedCalls, List.mem_append, List.mem_cons, List.mem_ite_nil_right,
    List.mem_singleton, List.not_mem_nil, or_false] at h
  rcases h with (rfl | rfl) | ⟨_, rfl⟩ | ⟨_, rfl⟩ | ⟨_, rfl⟩ <;>
    simp [Call.isDefine, Call.isDestroy, Call.isUndefine]

lemma followsPlan_mem {η : Type} (rest : List (Event η)) (planned : List (Call η))
    (ret : Outcome) (h : FollowsPlan rest planned ret) (ev : Event η) (hev : ev ∈ rest) :
    ev.call ∈ planned := by
  obtain ⟨⟨tail, h1⟩, -⟩ := h
  rw [← h1]
  exact List.mem_append_left _ (List.mem_map_of_mem _ hev)

lemma followsPlan_last {η : Type} (rest : List (Event η)) (planned : List (Call η))
    (ret : Outcome) (h : FollowsPlan rest planned ret) (ev : Event η) (err : VirError)
    (hl : rest.getLast? = some ev) (he : ev.err = some err) :
    ∃ s, ev.call.createStep = some s ∧ ret = .error (s.errorText ++ err.Text) := by
  obtain ⟨-, -, h3, -, h5⟩ := h
  have hne : ret ≠ .nil := by
    intro hr
    have := (h3.mp hr) ev (List.mem_of_getLast?_eq_some hl)
    simp [he] at this
  obtain ⟨ev2, err2, s, hl2, he2, hs, hr⟩ := h5 hne
  rw [hl] at hl2
  cases hl2
  rw [he] at he2
  cases he2
  exact ⟨s, hs, hr⟩

lemma createStart_seen {σ η : Type} (c : Connect σ η) (pool : η) (d d2 : ResourceData)
    (w : σ) (tr : List (Event η)) (hs : d.start = d2.start) :
    (createStart c pool d w tr).seen = (createStart c pool d2 w tr).seen := by
  rcases h2 : d2.start
  · simp [createStart, Run.seen, hs, h2]
  · rcases hc : c.Create pool .STORAGE_POOL_CREATE_NORMAL w with ⟨_ | err, w2⟩ <;>
      simp [createStart, Run.seen, hs, h2, hc]

lemma createBuild_seen {σ η : Type} (c : Connect σ η) (pool : η) (d d2 : ResourceData)
    (w : σ) (tr : List (Event η)) (hb : d.build = d2.build) (hs : d.start = d2.start) :
    (createBuild c pool d w tr).seen = (createBuild c pool d2 w tr).seen := by
  rcases h2 : d2.build
  · simpa [createBuild, hb, h2] using createStart_seen c pool d d2 w tr hs
  · rcases hc : c.Build pool .STORAGE_POOL_BUILD_NO_OVERWRITE w with ⟨_ | err, w2⟩
    · simpa [createBuild, hb, h2, hc] using createStart_seen c pool d d2 w2 _ hs
    · simp [createBuild, Run.seen, hb, h2, hc]

lemma createAutostart_seen {σ η : Type} (c : Connect σ η) (pool : η) (d d2 : ResourceData)
    (w : σ) (tr : List (Event η)) (ha : d.autostart = d2.autostart)
    (hb : d.build = d2.build) (hs : d.start = d2.start) :
    (createAutostart c pool d w tr).seen = (createAutostart c pool d2 w tr).seen := by
  rcases h2 : d2.autostart
  · simpa [createAutostart, ha, h2] using createBuild_seen c pool d d2 w tr hb hs
  · rcases hc : c.SetAutostart pool true w with ⟨_ | err, w2⟩
    · simpa [createAutostart, ha, h2, hc] using createBuild_seen c pool d d2 w2 _ hb hs
    · simp [createAutostart, Run.seen, ha, h2, hc]

lemma createAfterDefine_seen {σ η : Type} (c : Connect σ η) (pool : η)
    (d d2 : ResourceData) (w : σ) (tr : List (Event η)) (ha : d.autostart = d2.autostart)
    (hb : d.build = d2.build) (hs : d.start = d2.start) :
    (createAfterDefine c pool d w tr).seen = (createAfterDefine c pool d2 w tr).seen := by
  rcases hn : c.GetName pool w with ⟨err | name, w2⟩
  · simp [createAfterDefine, Run.seen, hn]
  · rcases hu : c.GetUUIDString pool w2 with ⟨err | uuid, w3⟩
    · simp [createAfterDefine, Run.seen, hn, hu]
    · simpa [createAfterDefine, hn, hu] using
        createAutostart_seen c pool
          { d with partialMode := true, id := name, name := name, uuid := uuid }
          { d2 with partialMode := true, id := name, name := name, uuid := uuid } w3 _
          ha hb hs

/-! ## The source device path of a filesystem pool -/

lemma createPoolDef_fs_string (d : ResourceData) (path : String) (ht : d.type = "fs")
    (hp : d.source_device_path = some path) :
    createPoolDef d =
      .ok ⟨"fs", d.name, some ⟨d.target_path⟩, some ⟨[⟨path⟩]⟩⟩ := by
  simp [createPoolDef, newDefPool, newDefPoolSourceDevice, ht, hp]

lemma createPoolDef_fs_guard (d : ResourceData) (ht : d.type = "fs") :
    createPoolDef d = .error (.error "Error getting source device path for fs") ↔
      d.source_device_path = none := by
  rcases hp : d.source_device_path with _ | path <;>
    simp [createPoolDef, newDefPool, newDefPoolSourceDevice, ht, hp]

/-- C1, the code misses the check: for the second scenario, type "fs" with no
source device path configured, `d.Get("source_device.path")` is the empty
string, the assertion of line 124 succeeds and the guard of lines 125-127
does not fire.  Create builds a document with one source device of empty
path, issues StoragePoolDefineXML, GetName and GetUUIDString, records the
name and the UUID as the identity, and returns nil, where the claim asks for
the error "Error getting source device path for fs" and no remote call. -/
theorem create_fs_unset_source_device_defines_pool :
    pool2.type = "fs" ∧ pool2.source_device_path = some "" ∧
    createPoolDef pool2 = .ok pool2Doc ∧
    (resourceLibvirtPoolCreate sampleEnv pool2
        ⟨some (storeConnect sampleXmlName (fun _ => "u-2"))⟩ emptyHypervisor).ret = .nil ∧
    (resourceLibvirtPoolCreate sampleEnv pool2
        ⟨some (storeConnect sampleXmlName (fun _ => "u-2"))⟩ emptyHypervisor).ret ≠
      .error "Error getting source device path for fs" ∧
    (resourceLibvirtPoolCreate sampleEnv pool2
        ⟨some (storeConnect sampleXmlName (fun _ => "u-2"))⟩ emptyHypervisor).calls =
      [.StoragePoolDefineXML "pool2|fs|/mnt/p2" 0, .GetName "pool2",
        .GetUUIDString "pool2"] ∧
    (resourceLibvirtPoolCreate sampleEnv pool2
        ⟨some (storeConnect sampleXmlName (fun _ => "u-2"))⟩ emptyHypervisor).d.id = "pool2" ∧
    (resourceLibvirtPoolCreate sampleEnv pool2
        ⟨some (storeConnect sampleXmlName (fun _ => "u-2"))⟩ emptyHypervisor).d.uuid = "u-2" ∧
    (resourceLibvirtPoolCreate sampleEnv pool2
        ⟨some (storeConnect sampleXmlName (fun _ => "u-2"))⟩ emptyHypervisor).world.find
      "pool2" = some ⟨"pool2", "u-2", false, false⟩ :=
  ⟨rfl, rfl, rfl, rfl, fun h => Outcome.noConfusion (h : Outcome.nil = Outcome.error _),
    rfl, rfl, rfl, rfl⟩

/-! ## Delete -/

/-- C3: when the lookup by UUID of Delete finds a pool: if the pool is active,
Destroy is called exactly once, after the lookup and the activity check and
before any Undefine; if Destroy then fails, Delete returns the destroy error
and Undefine is not called, otherwise Undefine is called exactly once, right
after Destroy; if the pool is inactive, Destroy is not called and Undefine is
called exactly once. -/
theorem delete_destroys_before_undefine {σ η : Type} (env : Env) (d : ResourceData)
    (virConn : Connect σ η) (w w1 : σ) (p : η)
    (hlook : virConn.LookupStoragePoolByUUIDString d.uuid w = (.ok (some p), w1)) :
    let r := resourceLibvirtPoolDelete env d ⟨some virConn⟩ w
    (∀ w2, virConn.IsActive p w1 = (.ok true, w2) →
      r.calls.countP Call.isDestroy = 1 ∧
      (∀ e, (virConn.Destroy p w2).1 = some e →
        r.ret = .error ("Error destroying storage pool: " ++ e.Text ++ "\n") ∧
        r.calls = [.LookupStoragePoolByUUIDString d.uuid, .IsActive p, .Destroy p] ∧
        r.calls.countP Call.isUndefine = 0) ∧
      ((virConn.Destroy p w2).1 = none →
        r.calls = [.LookupStoragePoolByUUIDString d.uuid, .IsActive p, .Destroy p,
          .Undefine p] ∧
        r.calls.countP Call.isUndefine = 1)) ∧
    (∀ w2, virConn.IsActive p w1 = (.ok false, w2) →
      r.calls = [.LookupStoragePoolByUUIDString d.uuid, .IsActive p, .Undefine p] ∧
      r.calls.countP Call.isDestroy = 0 ∧ r.calls.countP Call.isUndefine = 1) := by
  intro r
  refine ⟨?_, ?_⟩
  · intro w2 hact
    rcases hd : virConn.Destroy p w2 with ⟨_ | e, w3⟩
    · rcases hu : virConn.Undefine p w3 with ⟨_ | e2, w4⟩ <;>
        simp [r, resourceLibvirtPoolDelete, hlook, hact, hd, hu, Run.calls, Call.isDestroy,
          Call.isUndefine]
    · simp [r, resourceLibvirtPoolDelete, hlook, hact, hd, Run.calls, Call.isDestroy,
        Call.isUndefine]
  · intro w2 hact
    rcases hu : virConn.Undefine p w2 with ⟨_ | e2, w4⟩ <;>
      simp [r, resourceLibvirtPoolDelete, hlook, hact, hu, Run.calls, Call.isDestroy,
        Call.isUndefine]

/-- An active pool of the model layer, deleted: an instance of C3. -/
theorem delete_destroys_before_undefine_witness :
    (storeConnect some (fun _ => "u-1")).LookupStoragePoolByUUIDString pool1Defined.uuid
        activeStore = (.ok (some "pool1"), activeStore) ∧
    (resourceLibvirtPoolDelete sampleEnv pool1Defined
        ⟨some (storeConnect some (fun _ => "u-1"))⟩ activeStore).calls =
       [.LookupStoragePoolByUUIDString "u-1", .IsActive "pool1", .Destroy "pool1",
         .Undefine "pool1"] :=
  ⟨rfl,
   (((delete_destroys_before_undefine sampleEnv pool1Defined
      (storeConnect some (fun _ => "u-1")) activeStore activeStore "pool1" rfl).1
      activeStore rfl).2.2 rfl).1⟩

/-! ## Release of the pool object -/

/-- C10: in Read, Update and Exists, when the lookup by name hands out a pool
object, Free is called on it exactly once and is the last remote call of the
run, whatever the calls in between return; when the lookup fails, Free is not
called. -/
theorem pool_object_freed_once_and_last {σ η : Type} (env : Env) (d : ResourceData)
    (virConn : Connect σ η) (w : σ) :
    (∀ p w1, virConn.LookupStoragePoolByName d.id w = (.ok (some p), w1) →
      (resourceLibvirtPoolRead env d ⟨some virConn⟩ w).calls.getLast? = some (.Free p) ∧
      (resourceLibvirtPoolRead env d ⟨some virConn⟩ w).calls.countP Call.isFree = 1) ∧
    (∀ e w1, virConn.LookupStoragePoolByName d.id w = (.error e, w1) →
      (resourceLibvirtPoolRead env d ⟨some virConn⟩ w).calls.countP Call.isFree = 0) ∧
    (∀ p w1, virConn.LookupStoragePoolByName d.name w = (.ok (some p), w1) →
      (resourceLibvirtPoolUpdate env d ⟨some virConn⟩ w).calls.getLast? = some (.Free p) ∧
      (resourceLibvirtPoolUpdate env d ⟨some virConn⟩ w).calls.countP Call.isFree = 1 ∧
      (resourceLibvirtPoolExists env d ⟨some virConn⟩ w).calls.getLast? = some (.Free p) ∧
      (resourceLibvirtPoolExists env d ⟨some virConn⟩ w).calls.countP Call.isFree = 1) ∧
    (∀ e w1, virConn.LookupStoragePoolByName d.name w = (.error e, w1) →
      (resourceLibvirtPoolUpdate env d ⟨some virConn⟩ w).calls.countP Call.isFree = 0 ∧
      (resourceLibvirtPoolExists env d ⟨some virConn⟩ w).calls.countP Call.isFree = 0) := by
  refine ⟨?_, ?_, ?_, ?_⟩
  · intro p w1 hl
    rcases hu : virConn.GetUUIDString p w1 with ⟨e | u, w2⟩
    · simp [resourceLibvirtPoolRead, readBody, deferFree, hl, hu, Run.calls, Call.isFree]
    · rcases ha : virConn.GetAutostart p w2 with ⟨e | a, w3⟩ <;>
        simp [resourceLibvirtPoolRead, readBody, deferFree, hl, hu, ha, Run.calls, Call.isFree]
  · intro e w1 hl
    simp [resourceLibvirtPoolRead, hl, Run.calls, Call.isFree]
  · intro p w1 hl
    by_cases hc : d.autostart_prior = d.autostart
    · simp [resourceLibvirtPoolUpdate, resourceLibvirtPoolExists, deferFree, hl, hc,
        Run.calls, Call.isFree, ResourceData.HasChange_autostart]
    · rcases hs : virConn.SetAutostart p d.autostart w1 with ⟨_ | e, w2⟩ <;>
        simp [resourceLibvirtPoolUpdate, resourceLibvirtPoolExists, deferFree, hl, hc, hs,
          Run.calls, Call.isFree, ResourceData.HasChange_autostart]
  · intro e w1 hl
    simp [resourceLibvirtPoolUpdate, resourceLibvirtPoolExists, hl, Run.calls, Call.isFree]

/-- Read of the pool of the first scenario on the model layer: an instance of
C10. -/
theorem pool_object_freed_once_and_last_witness :
    (storeConnect some (fun _ => "u-1")).LookupStoragePoolByName pool1Defined.id activeStore =
      (.ok (some "pool1"), activeStore) ∧
    (resourceLibvirtPoolRead sampleEnv pool1Defined
        ⟨some (storeConnect some (fun _ => "u-1"))⟩ activeStore).calls.getLast? =
      some (.Free "pool1") ∧
    (resourceLibvirtPoolRead sampleEnv pool1Defined
        ⟨some (storeConnect some (fun _ => "u-1"))⟩ activeStore).calls.countP Call.isFree = 1 :=
  ⟨rfl, (pool_object_freed_once_and_last sampleEnv pool1Defined
    (storeConnect some (fun _ => "u-1")) activeStore).1 "pool1" activeStore rfl⟩

/-! ## Update -/

/-- C4, the claim fails: with the autostart field unchanged, Update on the
model layer still looks the pool up and frees it, so remote calls are
issued. -/
theorem update_unchanged_still_calls :
    pool1Steady.HasChange_autostart = false ∧
    (resourceLibvirtPoolUpdate sampleEnv pool1Steady
        ⟨some (storeConnect some (fun _ => "u-1"))⟩ activeStore).calls =
      [.LookupStoragePoolByName "pool1", .Free "pool1"] ∧
    (resourceLibvirtPoolUpdate sampleEnv pool1Steady
        ⟨some (storeConnect some (fun _ => "u-1"))⟩ activeStore).trace ≠ [] := by
  refine ⟨rfl, rfl, ?_⟩
  simp [resourceLibvirtPoolUpdate, deferFree, storeConnect, Hypervisor.find, activeStore,
    pool1Steady, pool1Defined, pool1]

/-- C4 as amended: Update always looks the pool up by name first.  With the
autostart field unchanged it issues no SetAutostart call, whatever the other
fields are: its calls are the lookup and, when the lookup handed out a pool,
Free.  With the autostart field changed and a pool handed out it issues
exactly one SetAutostart call, with the new autostart value, between the
lookup and Free; when the lookup fails the lookup is the only call. -/
theorem update_sets_autostart_only_on_change {σ η : Type} (env : Env) (d : ResourceData)
    (virConn : Connect σ η) (w : σ) :
    let r := resourceLibvirtPoolUpdate env d ⟨some virConn⟩ w
    (d.HasChange_autostart = false →
      r.calls.countP Call.isSetAutostart = 0 ∧
      (∀ p w1, virConn.LookupStoragePoolByName d.name w = (.ok (some p), w1) →
        r.calls = [.LookupStoragePoolByName d.name, .Free p] ∧ r.ret = .nil)) ∧
    (d.HasChange_autostart = true →
      ∀ p w1, virConn.LookupStoragePoolByName d.name w = (.ok (some p), w1) →
        r.calls = [.LookupStoragePoolByName d.name, .SetAutostart p d.autostart, .Free p] ∧
        r.calls.countP Call.isSetAutostart = 1) ∧
    (∀ e w1, virConn.LookupStoragePoolByName d.name w = (.error e, w1) →
      r.calls = [.LookupStoragePoolByName d.name] ∧
      r.ret = .error ("Error lookup up storage pool by name: " ++ e.Text ++ "\n")) := by
  intro r
  refine ⟨?_, ?_, ?_⟩
  · intro hc
    have hc2 : d.autostart_prior = d.autostart := by
      simpa [ResourceData.HasChange_autostart] using hc
    refine ⟨?_, ?_⟩
    · rcases hl : virConn.LookupStoragePoolByName d.name w with ⟨e | _ | p, w1⟩ <;>
        simp [r, resourceLibvirtPoolUpdate, deferFree, hl, hc2, Run.calls,
          Call.isSetAutostart, ResourceData.HasChange_autostart]
    · intro p w1 hl
      simp [r, resourceLibvirtPoolUpdate, deferFree, hl, hc2, Run.calls,
        ResourceData.HasChange_autostart]
  · intro hc p w1 hl
    have hc2 : ¬ d.autostart_prior = d.autostart := by
      simpa [ResourceData.HasChange_autostart] using hc
    rcases hs : virConn.SetAutostart p d.autostart w1 with ⟨_ | e, w2⟩ <;>
      simp [r, resourceLibvirtPoolUpdate, deferFree, hl, hc2, hs, Run.calls,
        Call.isSetAutostart, ResourceData.HasChange_autostart]
  · intro e w1 hl
    simp [r, resourceLibvirtPoolUpdate, hl, Run.calls]

/-- An autostart change on the model layer: an instance of C4 as amended. -/
theorem update_sets_autostart_only_on_change_witness :
    pool1Defined.HasChange_autostart = true ∧
    (storeConnect some (fun _ => "u-1")).LookupStoragePoolByName pool1Defined.name activeStore =
      (.ok (some "pool1"), activeStore) ∧
    (resourceLibvirtPoolUpdate sampleEnv pool1Defined
        ⟨some (storeConnect some (fun _ => "u-1"))⟩ activeStore).calls =
      [.LookupStoragePoolByName "pool1", .SetAutostart "pool1" true, .Free "pool1"] ∧
    (resourceLibvirtPoolUpdate sampleEnv pool1Defined
        ⟨some (storeConnect some (fun _ => "u-1"))⟩ activeStore).calls.countP
      Call.isSetAutostart = 1 :=
  ⟨rfl, rfl, (update_sets_autostart_only_on_change sampleEnv pool1Defined
    (storeConnect some (fun _ => "u-1")) activeStore).2.1 rfl "pool1" activeStore rfl⟩

/-! ## Exists -/

/-- C7: once the document is built and serialized and StoragePoolDefineXML
has returned a pool, the remote calls that follow are the planned sequence
GetName, GetUUIDString, SetAutostart(true) if autostart is requested,
Build(no overwrite) if build is requested, Create(normal) if start is
requested, cut after the first call that fails: every call but the last
succeeded, Create returns nil exactly when no call failed, in which case the
whole sequence was issued, and otherwise the last call failed and its error
is returned inside the text of its step.  Neither Destroy nor Undefine is
ever issued. -/
theorem create_calls_after_define {σ η : Type} (env : Env) (d : ResourceData)
    (virConn : Connect σ η) (w w1 : σ) (doc : StoragePool) (x : String) (pool : η)
    (hdoc : createPoolDef d = .ok doc) (hx : env.xmlMarshal doc = .ok x)
    (hdef : virConn.StoragePoolDefineXML x 0 w = (.ok (some pool), w1)) :
    let r := resourceLibvirtPoolCreate env d ⟨some virConn⟩ w
    ∃ rest, r.trace = ⟨.StoragePoolDefineXML x 0, none⟩ :: rest ∧
      (∃ tail, rest.map Event.call ++ tail = plannedCalls d pool) ∧
      (∀ ev ∈ rest.dropLast, ev.err = none) ∧
      (r.ret = .nil ↔ ∀ ev ∈ rest, ev.err = none) ∧
      (r.ret = .nil → rest.map Event.call = plannedCalls d pool) ∧
      (r.ret ≠ .nil → ∃ ev err s, rest.getLast? = some ev ∧ ev.err = some err ∧
        ev.call.createStep = some s ∧ r.ret = .error (s.errorText ++ err.Text)) ∧
      r.calls.countP Call.isDestroy = 0 ∧ r.calls.countP Call.isUndefine = 0 := by
  intro r
  obtain ⟨rest, h1, h2⟩ := createAfterDefine_follows virConn pool d w1
    [⟨.StoragePoolDefineXML x 0, none⟩]
  have hr : r = createAfterDefine virConn pool d w1 [⟨.StoragePoolDefineXML x 0, none⟩] := by
    simp [r, resourceLibvirtPoolCreate, hdoc, hx, hdef]
  have hmem := followsPlan_mem rest _ _ h2
  rw [← hr] at h1 h2
  obtain ⟨p1, p2, p3, p4, p5⟩ := h2
  refine ⟨rest, by simpa using h1, p1, p2, p3, p4, p5, ?_, ?_⟩
  · rw [List.countP_eq_zero]
    intro c hc
    simp only [Run.calls, h1, List.map_append, List.map_cons, List.map_nil,
      List.singleton_append, List.mem_cons, List.mem_map] at hc
    rcases hc with rfl | ⟨ev, hev, rfl⟩
    · simp [Call.isDestroy]
    · simp [(planned_not_define d pool _ (hmem ev hev)).2.1]
  · rw [List.countP_eq_zero]
    intro c hc
    simp only [Run.calls, h1, List.map_append, List.map_cons, List.map_nil,
      List.singleton_append, List.mem_cons, List.mem_map] at hc
    rcases hc with rfl | ⟨ev, hev, rfl⟩
    · simp [Call.isUndefine]
    · simp [(planned_not_define d pool _ (hmem ev hev)).2.2]

/-- The first scenario on the model layer, an instance of C7: the pool is
defined, its name and UUID are read, autostart is set, the pool is started
with the normal flag, and no Build is issued. -/
theorem create_calls_after_define_witness :
    createPoolDef pool1 = .ok pool1Doc ∧
    sampleEnv.xmlMarshal pool1Doc = .ok "pool1|dir|/data/pool1" ∧
    (storeConnect sampleXmlName (fun _ => "u-1")).StoragePoolDefineXML
      "pool1|dir|/data/pool1" 0 emptyHypervisor = (.ok (some "pool1"), definedStore) ∧
    (resourceLibvirtPoolCreate sampleEnv pool1
        ⟨some (storeConnect sampleXmlName (fun _ => "u-1"))⟩ emptyHypervisor).calls =
      [.StoragePoolDefineXML "pool1|dir|/data/pool1" 0, .GetName "pool1",
        .GetUUIDString "pool1", .SetAutostart "pool1" true,
        .Create "pool1" .STORAGE_POOL_CREATE_NORMAL] ∧
    (resourceLibvirtPoolCreate sampleEnv pool1
        ⟨some (storeConnect sampleXmlName (fun _ => "u-1"))⟩ emptyHypervisor).ret = .nil ∧
    (resourceLibvirtPoolCreate sampleEnv pool1
        ⟨some (storeConnect sampleXmlName (fun _ => "u-1"))⟩ emptyHypervisor).calls.countP
      Call.isDestroy = 0 := by
  obtain ⟨rest, h⟩ := create_calls_after_define sampleEnv pool1
    (storeConnect sampleXmlName (fun _ => "u-1")) emptyHypervisor definedStore pool1Doc
    "pool1|dir|/data/pool1" "pool1" rfl rfl rfl
  exact ⟨rfl, rfl, rfl, rfl, rfl, h.2.2.2.2.2.2.1⟩

/-! ## The submitted document -/

/-- C8: whenever Create issues StoragePoolDefineXML, the document text it
submits is the serialization of a document whose Name, Type and Target.Path
are the configured name, type and target.path, which has a Source exactly
when the type is "fs", the Source then holding exactly one device with the
configured source device path; the flags are 0.  For a type other than "fs"
the document is built without a Source whatever the source device path is,
present or absent, and the run of Create (return value, calls and their
results, state of the layer) does not depend on it. -/
theorem submitted_document_matches_configuration {σ η : Type} (env : Env)
    (d : ResourceData) (virConn : Connect σ η) (w : σ) :
    (∀ x f, Call.StoragePoolDefineXML x f ∈
        (resourceLibvirtPoolCreate env d ⟨some virConn⟩ w).calls →
      ∃ doc, createPoolDef d = .ok doc ∧ env.xmlMarshal doc = .ok x ∧ f = 0 ∧
        doc.Name = d.name ∧ doc.Type_ = d.type ∧ doc.Target = some ⟨d.target_path⟩ ∧
        (doc.Source.isSome ↔ d.type = "fs") ∧
        (∀ src, doc.Source = some src →
          ∃ path, d.source_device_path = some path ∧ src.Device = [⟨path⟩])) ∧
    (d.type ≠ "fs" → ∀ sp,
      createPoolDef { d with source_device_path := sp } =
        .ok ⟨d.type, d.name, some ⟨d.target_path⟩, none⟩ ∧
      (resourceLibvirtPoolCreate env { d with source_device_path := sp }
          ⟨some virConn⟩ w).ret = (resourceLibvirtPoolCreate env d ⟨some virConn⟩ w).ret ∧
      (resourceLibvirtPoolCreate env { d with source_device_path := sp }
          ⟨some virConn⟩ w).trace = (resourceLibvirtPoolCreate env d ⟨some virConn⟩ w).trace ∧
      (resourceLibvirtPoolCreate env { d with source_device_path := sp }
          ⟨some virConn⟩ w).world =
        (resourceLibvirtPoolCreate env d ⟨some virConn⟩ w).world) := by
  refine ⟨?_, ?_⟩
  · intro x f hmem
    rcases hdoc : createPoolDef d with out | doc
    · simp [resourceLibvirtPoolCreate, hdoc, Run.calls] at hmem
    · rcases hx : env.xmlMarshal doc with e | x2
      · simp [resourceLibvirtPoolCreate, hdoc, hx, Run.calls] at hmem
      · have key : x = x2 ∧ f = 0 := by
          rcases hdef : virConn.StoragePoolDefineXML x2 0 w with ⟨err | _ | pool, w1⟩
          · simpa [resourceLibvirtPoolCreate, hdoc, hx, hdef, Run.calls] using hmem
          · simpa [resourceLibvirtPoolCreate, hdoc, hx, hdef, Run.calls] using hmem
          · obtain ⟨rest, h1, h2⟩ := createAfterDefine_follows virConn pool d w1
              [⟨.StoragePoolDefineXML x2 0, none⟩]
            simp only [resourceLibvirtPoolCreate, hdoc, hx, hdef, Run.calls, h1,
              List.map_append, List.map_cons, List.map_nil, List.singleton_append,
              List.mem_cons, List.mem_map] at hmem
            rcases hmem with heq | ⟨ev, hev, hcall⟩
            · simpa using heq
            · have := (planned_not_define d pool _ (followsPlan_mem rest _ _ h2 ev hev)).1
              rw [hcall] at this
              simp [Call.isDefine] at this
        obtain ⟨rfl, rfl⟩ := key
        exact ⟨doc, rfl, hx, rfl, createPoolDef_ok d doc hdoc⟩
  · intro ht sp
    have hdoc : ∀ sp2, createPoolDef { d with source_device_path := sp2 } =
        .ok ⟨d.type, d.name, some ⟨d.target_path⟩, none⟩ := by
      intro sp2
      simp [createPoolDef, newDefPool, ht]
    have hd : createPoolDef d = .ok ⟨d.type, d.name, some ⟨d.target_path⟩, none⟩ :=
      hdoc d.source_device_path
    refine ⟨hdoc sp, ?_⟩
    rcases hx : env.xmlMarshal ⟨d.type, d.name, some ⟨d.target_path⟩, none⟩ with e | x
    · simp [resourceLibvirtPoolCreate, hdoc sp, hd, hx]
    · rcases hdef : virConn.StoragePoolDefineXML x 0 w with ⟨err | _ | pool, w1⟩
      · simp [resourceLibvirtPoolCreate, hdoc sp, hd, hx, hdef]
      · simp [resourceLibvirtPoolCreate, hdoc sp, hd, hx, hdef]
      · have h := createAfterDefine_seen virConn pool { d with source_device_path := sp } d
          w1 [⟨.StoragePoolDefineXML x 0, none⟩] rfl rfl rfl
        simp only [Run.seen, Prod.mk.injEq] at h
        simpa [resourceLibvirtPoolCreate, hdoc sp, hd, hx, hdef] using h

/-- A filesystem pool with a source device on the model layer, an instance of
C8: the submitted document carries the one device. -/
theorem submitted_document_matches_configuration_witness :
    Call.StoragePoolDefineXML "pool3|fs|/mnt/p3" 0 ∈
      (resourceLibvirtPoolCreate sampleEnv pool3
        ⟨some (storeConnect sampleXmlName (fun _ => "u-3"))⟩ emptyHypervisor).calls ∧
    ∃ doc, createPoolDef pool3 = .ok doc ∧
      sampleEnv.xmlMarshal doc = .ok "pool3|fs|/mnt/p3" ∧ (0 : Nat) = 0 ∧
      doc.Name = pool3.name ∧ doc.Type_ = pool3.type ∧
      doc.Target = some ⟨pool3.target_path⟩ ∧
      (doc.Source.isSome ↔ pool3.type = "fs") ∧
      (∀ src, doc.Source = some src →
        ∃ path, pool3.source_device_path = some path ∧ src.Device = [⟨path⟩]) :=
  ⟨List.mem_cons_self _ _,
   (submitted_document_matches_configuration sampleEnv pool3
      (storeConnect sampleXmlName (fun _ => "u-3")) emptyHypervisor).1
      "pool3|fs|/mnt/p3" 0 (List.mem_cons_self _ _)⟩

/-! ## The error texts of Create -/

lemma create_last_error {σ η : Type} (env : Env) (d : ResourceData)
    (virConn : Connect σ η) (w : σ) (ev : Event η) (err : VirError)
    (hl : (resourceLibvirtPoolCreate env d ⟨some virConn⟩ w).trace.getLast? = some ev)
    (he : ev.err = some err) :
    ∃ s, ev.call.createStep = some s ∧
      (resourceLibvirtPoolCreate env d ⟨some virConn⟩ w).ret =
        .error (s.errorText ++ err.Text) := by
  rcases hdoc : createPoolDef d with out | doc
  · simp [resourceLibvirtPoolCreate, hdoc] at hl
  · rcases hx : env.xmlMarshal doc with e | x
    · simp [resourceLibvirtPoolCreate, hdoc, hx] at hl
    · rcases hdef : virConn.StoragePoolDefineXML x 0 w with ⟨e2 | _ | pool, w1⟩
      · simp only [resourceLibvirtPoolCreate, hdoc, hx, hdef, List.getLast?_singleton,
          Option.some.injEq] at hl
        subst hl
        simp only [Option.some.injEq] at he
        subst he
        exact ⟨.define, rfl, by simp [resourceLibvirtPoolCreate, hdoc, hx, hdef,
          CreateStep.errorText]⟩
      · simp only [resourceLibvirtPoolCreate, hdoc, hx, hdef, List.getLast?_singleton,
          Option.some.injEq] at hl
        subst hl
        simp at he
      · obtain ⟨rest, h1, h2⟩ := createAfterDefine_follows virConn pool d w1
          [⟨.StoragePoolDefineXML x 0, none⟩]
        have hr : resourceLibvirtPoolCreate env d ⟨some virConn⟩ w =
            createAfterDefine virConn pool d w1 [⟨.StoragePoolDefineXML x 0, none⟩] := by
          simp [resourceLibvirtPoolCreate, hdoc, hx, hdef]
        rw [hr] at hl ⊢
        rw [h1] at hl
        cases rest with
        | nil =>
          simp only [List.append_nil, List.getLast?_singleton, Option.some.injEq] at hl
          subst hl
          simp at he
        | cons b rest =>
          have hl2 : (b :: rest).getLast? = some ev := by
            simpa [List.getLast?_cons_cons] using hl
          exact followsPlan_last _ _ _ h2 ev err hl2 he

lemma create_failure_text {σ η : Type} (env : Env) (d : ResourceData)
    (virConn : Connect σ η) (w : σ) (s : CreateStep) (e : String)
    (h : FailedAt env d (resourceLibvirtPoolCreate env d ⟨some virConn⟩ w) s e) :
    (resourceLibvirtPoolCreate env d ⟨some virConn⟩ w).ret = .error (s.errorText ++ e) := by
  have other : (∃ ev err,
      (resourceLibvirtPoolCreate env d ⟨some virConn⟩ w).trace.getLast? = some ev ∧
      ev.err = some err ∧ err.Text = e ∧ ev.call.createStep = some s) →
      (resourceLibvirtPoolCreate env d ⟨some virConn⟩ w).ret =
        .error (s.errorText ++ e) := by
    rintro ⟨ev, err, hl, he, rfl, hs⟩
    obtain ⟨s2, hs2, hr⟩ := create_last_error env d virConn w ev err hl he
    rw [hs] at hs2
    cases hs2
    exact hr
  cases s with
  | serialize =>
    obtain ⟨doc, hdoc, hx⟩ := h
    simp [resourceLibvirtPoolCreate, hdoc, hx, CreateStep.errorText]
  | define => exact other h
  | fetchName => exact other h
  | fetchUUID => exact other h
  | setAutostart => exact other h
  | build => exact other h
  | start => exact other h

lemma append_ne_of_differ (p q a b : String) (i : Nat) (hp : i < p.data.length)
    (hq : i < q.data.length) (h : p.data[i]? ≠ q.data[i]?) : p ++ a ≠ q ++ b := by
  intro heq
  have h2 : (p ++ a).data[i]? = (q ++ b).data[i]? := by rw [heq]
  rw [String.data_append, String.data_append, List.getElem?_append_left hp,
    List.getElem?_append_left hq] at h2
  exact h h2

lemma errorText_differ (s1 s2 : CreateStep) (a b : String)
    (h : s1.textClass ≠ s2.textClass) : s1.errorText ++ a ≠ s2.errorText ++ b := by
  cases s1 <;> cases s2 <;> first
    | exact absurd rfl h
    | exact append_ne_of_differ _ _ a b 6 (by decide) (by decide) (by decide)
    | exact append_ne_of_differ _ _ a b 8 (by decide) (by decide) (by decide)
    | exact append_ne_of_differ _ _ a b 27 (by decide) (by decide) (by decide)

/-- C9, the claim fails: a failure of the definition and a failure of the
start on the same underlying error return the same text, "Error creating
libvirt pool: " and the underlying error, and so does a failure to fetch the
UUID. -/
theorem create_define_and_start_share_text :
    FailedAt sampleEnv pool1
      (resourceLibvirtPoolCreate sampleEnv pool1 ⟨some (failingAt .define internalError)⟩ ())
      .define internalError.Text ∧
    FailedAt sampleEnv pool1
      (resourceLibvirtPoolCreate sampleEnv pool1 ⟨some (failingAt .start internalError)⟩ ())
      .start internalError.Text ∧
    FailedAt sampleEnv pool1
      (resourceLibvirtPoolCreate sampleEnv pool1 ⟨some (failingAt .fetchUUID internalError)⟩ ())
      .fetchUUID internalError.Text ∧
    (resourceLibvirtPoolCreate sampleEnv pool1
      ⟨some (failingAt .define internalError)⟩ ()).ret =
      .error "Error creating libvirt pool: internal error" ∧
    (resourceLibvirtPoolCreate sampleEnv pool1
      ⟨some (failingAt .start internalError)⟩ ()).ret =
      .error "Error creating libvirt pool: internal error" ∧
    (resourceLibvirtPoolCreate sampleEnv pool1
      ⟨some (failingAt .fetchUUID internalError)⟩ ()).ret =
      .error "Error creating libvirt pool: internal error" :=
  ⟨⟨_, _, rfl, rfl, rfl, rfl⟩, ⟨_, _, rfl, rfl, rfl, rfl⟩, ⟨_, _, rfl, rfl, rfl, rfl⟩,
    rfl, rfl, rfl⟩

/-- C9 as amended: when Create fails at a step on an underlying error, it
returns the text of that step followed by the text of the underlying error.
The texts of serialization, fetching the name, setting autostart and build
differ from each other and from the text shared by definition, fetching the
UUID and start, whatever the underlying errors are; so two failures in
different classes of steps never return the same error. -/
theorem create_error_text_separates_classes {σ η σ2 η2 : Type} (env env2 : Env)
    (d d2 : ResourceData) (virConn : Connect σ η) (virConn2 : Connect σ2 η2) (w : σ)
    (w2 : σ2) (s s2 : CreateStep) (e e2 : String)
    (h : FailedAt env d (resourceLibvirtPoolCreate env d ⟨some virConn⟩ w) s e)
    (h2 : FailedAt env2 d2 (resourceLibvirtPoolCreate env2 d2 ⟨some virConn2⟩ w2) s2 e2) :
    (resourceLibvirtPoolCreate env d ⟨some virConn⟩ w).ret = .error (s.errorText ++ e) ∧
    (resourceLibvirtPoolCreate env2 d2 ⟨some virConn2⟩ w2).ret =
      .error (s2.errorText ++ e2) ∧
    (s.textClass ≠ s2.textClass →
      (resourceLibvirtPoolCreate env d ⟨some virConn⟩ w).ret ≠
        (resourceLibvirtPoolCreate env2 d2 ⟨some virConn2⟩ w2).ret) := by
  have r1 := create_failure_text env d virConn w s e h
  have r2 := create_failure_text env2 d2 virConn2 w2 s2 e2 h2
  refine ⟨r1, r2, ?_⟩
  intro hc heq
  rw [r1, r2] at heq
  exact errorText_differ s s2 e e2 hc (Outcome.error.inj heq)

/-- A failure to fetch the name and a failure of the build, on the same
underlying error: an instance of C9 as amended. -/
theorem create_error_text_separates_classes_witness :
    FailedAt sampleEnv pool3
      (resourceLibvirtPoolCreate sampleEnv pool3 ⟨some (failingAt .fetchName internalError)⟩ ())
      .fetchName internalError.Text ∧
    FailedAt sampleEnv pool3
      (resourceLibvirtPoolCreate sampleEnv pool3 ⟨some (failingAt .build internalError)⟩ ())
      .build internalError.Text ∧
    (resourceLibvirtPoolCreate sampleEnv pool3
        ⟨some (failingAt .fetchName internalError)⟩ ()).ret ≠
      (resourceLibvirtPoolCreate sampleEnv pool3
        ⟨some (failingAt .build internalError)⟩ ()).ret :=
  ⟨⟨_, _, rfl, rfl, rfl, rfl⟩, ⟨_, _, rfl, rfl, rfl, rfl⟩,
    (create_error_text_separates_classes sampleEnv sampleEnv pool3 pool3
      (failingAt .fetchName internalError) (failingAt .build internalError) () ()
      .fetchName .build internalError.Text internalError.Text
      ⟨_, _, rfl, rfl, rfl, rfl⟩ ⟨_, _, rfl, rfl, rfl, rfl⟩).2.2 (by decide)⟩

/-! ## Create, then Read, on the model layer -/

lemma find_modify (s : Hypervisor) (n m : String) (f : PoolObject → PoolObject)
    (hf : ∀ o, (f o).name = o.name) :
    (s.modify n f).find m = (s.find m).map (fun o => if o.name == n then f o else o) := by
  unfold Hypervisor.modify Hypervisor.find
  rw [List.find?_map]
  congr 1
  congr 1
  funext o
  simp only [Function.comp]
  split <;> simp [hf]

lemma holds_modify_active (s : Hypervisor) (n u : String) (a b : Bool)
    (h : s.Holds n u a) : (s.modify n (fun o => { o with active := b })).Holds n u a := by
  obtain ⟨act, h⟩ := h
  exact ⟨b, by simp [find_modify, h]⟩

lemma holds_modify_autostart (s : Hypervisor) (n u : String) (a b : Bool)
    (h : s.Holds n u a) : (s.modify n (fun o => { o with autostart := b })).Holds n u b := by
  obtain ⟨act, h⟩ := h
  exact ⟨act, by simp [find_modify, h]⟩

lemma createStart_skip {σ η : Type} (c : Connect σ η) (pool : η) (d : ResourceData) (w : σ)
    (tr : List (Event η)) (h : d.start = false) :
    createStart c pool d w tr = ⟨.nil, { d with partialMode := false }, w, tr⟩ := by
  simp [createStart, h]

lemma createStart_run {σ η : Type} (c : Connect σ η) (pool : η) (d : ResourceData) (w : σ)
    (tr : List (Event η)) (h : d.start = true) :
    createStart c pool d w tr =
      match c.Create pool .STORAGE_POOL_CREATE_NORMAL w with
      | (some err, w) =>
        ⟨.error ("Error creating libvirt pool: " ++ err.Text), d, w,
          tr ++ [⟨.Create pool .STORAGE_POOL_CREATE_NORMAL, some err⟩]⟩
      | (none, w) =>
        ⟨.nil, { d with partialMode := false }, w,
          tr ++ [⟨.Create pool .STORAGE_POOL_CREATE_NORMAL, none⟩]⟩ := by
  simp [createStart, h]

lemma createBuild_skip {σ η : Type} (c : Connect σ η) (pool : η) (d : ResourceData) (w : σ)
    (tr : List (Event η)) (h : d.build = false) :
    createBuild c pool d w tr = createStart c pool d w tr := by
  simp [createBuild, h]

lemma createBuild_run {σ η : Type} (c : Connect σ η) (pool : η) (d : ResourceData) (w : σ)
    (tr : List (Event η)) (h : d.build = true) :
    createBuild c pool d w tr =
      match c.Build pool .STORAGE_POOL_BUILD_NO_OVERWRITE w with
      | (some err, w) =>
        ⟨.error ("Error building libvirt pool: " ++ err.Text), d, w,
          tr ++ [⟨.Build pool .STORAGE_POOL_BUILD_NO_OVERWRITE, some err⟩]⟩
      | (none, w) =>
        createStart c pool d w (tr ++ [⟨.Build pool .STORAGE_POOL_BUILD_NO_OVERWRITE, none⟩]) := by
  simp [createBuild, h]

lemma createAutostart_skip {σ η : Type} (c : Connect σ η) (pool : η) (d : ResourceData)
    (w : σ) (tr : List (Event η)) (h : d.autostart = false) :
    createAutostart c pool d w tr = createBuild c pool d w tr := by
  simp [createAutostart, h]

lemma createAutostart_run {σ η : Type} (c : Connect σ η) (pool : η) (d : ResourceData)
    (w : σ) (tr : List (Event η)) (h : d.autostart = true) :
    createAutostart c pool d w tr =
      match c.SetAutostart pool true w with
      | (some err, w) =>
        ⟨.error ("Error setting libvirt pool autostart: " ++ err.Text), d, w,
          tr ++ [⟨.SetAutostart pool true, some err⟩]⟩
      | (none, w) =>
        createBuild c pool d w (tr ++ [⟨.SetAutostart pool true, none⟩]) := by
  simp [createAutostart, h]

lemma store_createStart (xmlName : String → Option String) (newUUID : Nat → String)
    (d : ResourceData) (s : Hypervisor) (tr : List (Event String)) (n u : String) (a : Bool)
    (h : s.Holds n u a)
    (hr : (createStart (storeConnect xmlName newUUID) n d s tr).ret = .nil) :
    (createStart (storeConnect xmlName newUUID) n d s tr).world.Holds n u a ∧
    (createStart (storeConnect xmlName newUUID) n d s tr).d = { d with partialMode := false } := by
  have h0 := h
  obtain ⟨act, hf⟩ := h
  by_cases hs : d.start = true
  · rw [createStart_run _ _ _ _ _ hs] at hr ⊢
    cases act
    · simpa [storeConnect, hf] using holds_modify_active s n u a true h0
    · simp [storeConnect, hf] at hr
  · rw [createStart_skip _ _ _ _ _ (by simpa using hs)]
    exact ⟨h0, rfl⟩

lemma store_createBuild (xmlName : String → Option String) (newUUID : Nat → String)
    (d : ResourceData) (s : Hypervisor) (tr : List (Event String)) (n u : String) (a : Bool)
    (h : s.Holds n u a)
    (hr : (createBuild (storeConnect xmlName newUUID) n d s tr).ret = .nil) :
    (createBuild (storeConnect xmlName newUUID) n d s tr).world.Holds n u a ∧
    (createBuild (storeConnect xmlName newUUID) n d s tr).d = { d with partialMode := false } := by
  have h0 := h
  obtain ⟨act, hf⟩ := h
  by_cases hb : d.build = true
  · rw [createBuild_run _ _ _ _ _ hb] at hr ⊢
    cases act
    · have hB : (storeConnect xmlName newUUID).Build n .STORAGE_POOL_BUILD_NO_OVERWRITE s =
          (none, s) := by simp [storeConnect, hf]
      rw [hB] at hr ⊢
      exact store_createStart xmlName newUUID d s _ n u a h0 hr
    · simp [storeConnect, hf] at hr
  · rw [createBuild_skip _ _ _ _ _ (by simpa using hb)] at hr ⊢
    exact store_createStart xmlName newUUID d s _ n u a h0 hr

lemma store_createAutostart (xmlName : String → Option String) (newUUID : Nat → String)
    (d : ResourceData) (s : Hypervisor) (tr : List (Event String)) (n u : String)
    (h : s.Holds n u false)
    (hr : (createAutostart (storeConnect xmlName newUUID) n d s tr).ret = .nil) :
    (createAutostart (storeConnect xmlName newUUID) n d s tr).world.Holds n u d.autostart ∧
    (createAutostart (storeConnect xmlName newUUID) n d s tr).d =
      { d with partialMode := false } := by
  have h0 := h
  obtain ⟨act, hf⟩ := h
  by_cases ha : d.autostart = true
  · rw [createAutostart_run _ _ _ _ _ ha] at hr ⊢
    have hS : (storeConnect xmlName newUUID).SetAutostart n true s =
        (none, s.modify n (fun o => { o with autostart := true })) := by
      simp [storeConnect, hf]
    rw [hS] at hr ⊢
    have key := store_createBuild xmlName newUUID d _ _ n u true
      (holds_modify_autostart s n u false true h0) hr
    exact ⟨by rw [ha]; exact key.1, key.2⟩
  · have ha2 : d.autostart = false := by simpa using ha
    rw [createAutostart_skip _ _ _ _ _ ha2] at hr ⊢
    have key := store_createBuild xmlName newUUID d s _ n u false h0 hr
    exact ⟨by rw [ha2]; exact key.1, key.2⟩

lemma store_createAfterDefine (xmlName : String → Option String) (newUUID : Nat → String)
    (d : ResourceData) (s : Hypervisor) (tr : List (Event String)) (n u : String)
    (h : s.Holds n u false)
    (hr : (createAfterDefine (storeConnect xmlName newUUID) n d s tr).ret = .nil) :
    (createAfterDefine (storeConnect xmlName newUUID) n d s tr).world.Holds n u d.autostart ∧
    (createAfterDefine (storeConnect xmlName newUUID) n d s tr).d =
      { d with id := n, name := n, uuid := u, partialMode := false } := by
  have h0 := h
  obtain ⟨act, hf⟩ := h
  have hN : (storeConnect xmlName newUUID).GetName n s = (.ok n, s) := by
    simp [storeConnect, hf]
  have hU : (storeConnect xmlName newUUID).GetUUIDString n s = (.ok u, s) := by
    simp [storeConnect, hf]
  simp only [createAfterDefine, hN, hU] at hr ⊢
  exact store_createAutostart xmlName newUUID _ s _ n u h0 hr

lemma store_read (xmlName : String → Option String) (newUUID : Nat → String) (env : Env)
    (d : ResourceData) (s : Hypervisor) (u : String) (a : Bool) (h : s.Holds d.id u a) :
    (resourceLibvirtPoolRead env d ⟨some (storeConnect xmlName newUUID)⟩ s).ret = .nil ∧
    (resourceLibvirtPoolRead env d ⟨some (storeConnect xmlName newUUID)⟩ s).d =
      { d with uuid := u, autostart := a } ∧
    (resourceLibvirtPoolRead env d ⟨some (storeConnect xmlName newUUID)⟩ s).world = s := by
  obtain ⟨act, hf⟩ := h
  simp [resourceLibvirtPoolRead, readBody, deferFree, storeConnect, hf]

/-- C5: on the model layer (a store of defined pools keyed by name, each with
a UUID and an autostart flag that is false at definition), whenever Create
returns nil, a Read that follows at once on the resource data and layer state
Create left behind returns nil too, leaves uuid equal to the UUID Create
recorded, and leaves autostart equal to the autostart value of the
configuration given to Create. -/
theorem create_then_read (xmlName : String → Option String) (newUUID : Nat → String)
    (env : Env) (d : ResourceData) (s : Hypervisor)
    (hr : (resourceLibvirtPoolCreate env d ⟨some (storeConnect xmlName newUUID)⟩ s).ret
      = .nil) :
    (resourceLibvirtPoolRead env
        (resourceLibvirtPoolCreate env d ⟨some (storeConnect xmlName newUUID)⟩ s).d
        ⟨some (storeConnect xmlName newUUID)⟩
        (resourceLibvirtPoolCreate env d ⟨some (storeConnect xmlName newUUID)⟩ s).world).ret
      = .nil ∧
    (resourceLibvirtPoolRead env
        (resourceLibvirtPoolCreate env d ⟨some (storeConnect xmlName newUUID)⟩ s).d
        ⟨some (storeConnect xmlName newUUID)⟩
        (resourceLibvirtPoolCreate env d ⟨some (storeConnect xmlName newUUID)⟩ s).world).d.uuid
      = (resourceLibvirtPoolCreate env d ⟨some (storeConnect xmlName newUUID)⟩ s).d.uuid ∧
    (resourceLibvirtPoolRead env
        (resourceLibvirtPoolCreate env d ⟨some (storeConnect xmlName newUUID)⟩ s).d
        ⟨some (storeConnect xmlName newUUID)⟩
        (resourceLibvirtPoolCreate env d
          ⟨some (storeConnect xmlName newUUID)⟩ s).world).d.autostart
      = d.autostart := by
  rcases hdoc : createPoolDef d with out | doc
  · have := createPoolDef_error d out hdoc
    subst this
    simp [resourceLibvirtPoolCreate, hdoc] at hr
  · rcases hx : env.xmlMarshal doc with e | x
    · simp [resourceLibvirtPoolCreate, hdoc, hx] at hr
    · rcases hn : xmlName x with _ | n
      · simp [resourceLibvirtPoolCreate, hdoc, hx, storeConnect, hn] at hr
      · rcases hf : s.find n with _ | o
        · have hD : (storeConnect xmlName newUUID).StoragePoolDefineXML x 0 s =
              (.ok (some n), s.add n (newUUID s.serial)) := by
            simp [storeConnect, hn, hf]
          have hH : (s.add n (newUUID s.serial)).Holds n (newUUID s.serial) false :=
            ⟨false, by simp [Hypervisor.find, Hypervisor.add]⟩
          simp only [resourceLibvirtPoolCreate, hdoc, hx, hD] at hr ⊢
          obtain ⟨h1, h2⟩ := store_createAfterDefine xmlName newUUID d _ _ n _ hH hr
          generalize createAfterDefine (storeConnect xmlName newUUID) n d
            (s.add n (newUUID s.serial)) [⟨.StoragePoolDefineXML x 0, none⟩] = R at hr h1 h2 ⊢
          have h3 := store_read xmlName newUUID env R.d R.world (newUUID s.serial) d.autostart
            (by rw [h2]; exact h1)
          rw [h3.1, h3.2.1, h2]
          exact ⟨rfl, rfl, rfl⟩
        · simp [resourceLibvirtPoolCreate, hdoc, hx, storeConnect, hn, hf] at hr

/-- The first scenario created and read back on the model layer: an instance
of C5. -/
theorem create_then_read_witness :
    (resourceLibvirtPoolCreate sampleEnv pool1
      ⟨some (storeConnect sampleXmlName (fun _ => "u-1"))⟩ emptyHypervisor).ret = .nil ∧
    (resourceLibvirtPoolCreate sampleEnv pool1
      ⟨some (storeConnect sampleXmlName (fun _ => "u-1"))⟩ emptyHypervisor).d.uuid = "u-1" ∧
    ((resourceLibvirtPoolRead sampleEnv
        (resourceLibvirtPoolCreate sampleEnv pool1
          ⟨some (storeConnect sampleXmlName (fun _ => "u-1"))⟩ emptyHypervisor).d
        ⟨some (storeConnect sampleXmlName (fun _ => "u-1"))⟩
        (resourceLibvirtPoolCreate sampleEnv pool1
          ⟨some (storeConnect sampleXmlName (fun _ => "u-1"))⟩ emptyHypervisor).world).ret
      = .nil ∧
    (resourceLibvirtPoolRead sampleEnv
        (resourceLibvirtPoolCreate sampleEnv pool1
          ⟨some (storeConnect sampleXmlName (fun _ => "u-1"))⟩ emptyHypervisor).d
        ⟨some (storeConnect sampleXmlName (fun _ => "u-1"))⟩
        (resourceLibvirtPoolCreate sampleEnv pool1
          ⟨some (storeConnect sampleXmlName (fun _ => "u-1"))⟩ emptyHypervisor).world).d.uuid
      = (resourceLibvirtPoolCreate sampleEnv pool1
          ⟨some (storeConnect sampleXmlName (fun _ => "u-1"))⟩ emptyHypervisor).d.uuid ∧
    (resourceLibvirtPoolRead sampleEnv
        (resourceLibvirtPoolCreate sampleEnv pool1
          ⟨some (storeConnect sampleXmlName (fun _ => "u-1"))⟩ emptyHypervisor).d
        ⟨some (storeConnect sampleXmlName (fun _ => "u-1"))⟩
        (resourceLibvirtPoolCreate sampleEnv pool1
          ⟨some (storeConnect sampleXmlName (fun _ => "u-1"))⟩
          emptyHypervisor).world).d.autostart
      = pool1.autostart) :=
  ⟨rfl, rfl, create_then_read sampleXmlName (fun _ => "u-1") sampleEnv pool1 emptyHypervisor rfl⟩

end libvirt
